import Mathlib

/-!
Verification of the TCP command server in `src/Python/interface/matlab.py`
(`MatlabTcpHandler.handle` and the helpers it uses).

The handler is embedded shallowly:

* the Session Store (`global_vars`) is an association list `Store`;
* one iteration of the read/dispatch/reply loop is `handleLine`, which takes
  the raw line read from the socket and returns the list of strings passed to
  `sendall`, the updated store, and whether the loop continues, breaks, or
  initiates server shutdown;
* Python's `eval`/`exec` are arbitrary code execution and are modelled as
  oracle functions (`Evaluator`, `ExecFn`) supplied to the step function; an
  oracle reports the resulting value, the text printed while `sys.stdout` was
  redirected, and the store after any side effects;
* values are `PyValue`: either a JSON-representable value (`JVal`, covering
  `None`, `bool`, `int`, `str`, `list`, `dict`; `float` is outside the scope
  of this embedding) or an opaque executor-native object carrying its `str()`
  text, its `repr()` text and its type name;
* `json.loads` / `json.dumps` (stdlib dependencies of the handler) are
  embedded as `jsonLoads` / `jsonDumps`: `jsonDumps` follows the default
  encoder (separators `", "` and `": "`, `ensure_ascii` escaping with
  surrogate pairs for astral characters), `jsonLoads` is a recursive-descent
  parser following the strict decoder on integer-numbered documents.  Inputs
  that Python would read as floats (`1.5`, `1e3`, `NaN`, `Infinity`) and
  escape sequences denoting lone surrogates are rejected by the model.
-/

/-! ## Python string helpers -/

/-- Whitespace for Python's `str.strip()`: space, tab, newline, carriage
return, vertical tab, form feed. -/
def pyWs (c : Char) : Bool :=
  c = ' ' || c = '\t' || c = '\n' || c = '\r' || c = '\x0b' || c = '\x0c'

/-- JSON whitespace as accepted by Python's `json` scanner. -/
def jWs (c : Char) : Bool :=
  c = ' ' || c = '\t' || c = '\n' || c = '\r'

/-- Drop leading JSON whitespace. -/
def skipWs : List Char → List Char
  | [] => []
  | c :: r => if jWs c then skipWs r else c :: r

/-- Python `str.strip()` on the underlying character list. -/
def pyStripL (s : List Char) : List Char :=
  ((s.dropWhile pyWs).reverse.dropWhile pyWs).reverse

/-- Python `str.strip()`. -/
def pyStrip (s : String) : String :=
  String.mk (pyStripL s.data)

/-- Split at the first occurrence of `sep`: `some (before, after)` when `sep`
occurs, `none` otherwise.  This is the shape of Python's `split(sep, 1)`. -/
def splitOnceL (sep : Char) : List Char → Option (List Char × List Char)
  | [] => none
  | c :: r =>
    if c = sep then some ([], r)
    else (splitOnceL sep r).map (fun p => (c :: p.1, p.2))

/-- Python `s.split(sep, 1)` returning `some` when the separator occurs. -/
def splitOnce (sep : Char) (s : String) : Option (String × String) :=
  (splitOnceL sep s.data).map (fun p => (String.mk p.1, String.mk p.2))

/-- Command-line parsing of the handler: `parts = command_line.split(' ', 1)`;
`cmd = parts[0]`; `arg = parts[1] if len(parts) > 1 else ''`. -/
def parseCmd (line : String) : String × String :=
  match splitOnce ' ' line with
  | some (c, a) => (c, a)
  | none => (line, "")

/-- Fuelled core of Python's `str.replace`: leftmost-first, non-overlapping
replacement of `pat` by `repl`.  The fuel only needs to dominate the input
length (one unit per character consumed); the source only calls this with
non-empty patterns. -/
def replGo (pat repl : List Char) : Nat → List Char → List Char
  | 0, s => s
  | _ + 1, [] => []
  | f + 1, c :: rest =>
    if pat ≠ [] ∧ pat.isPrefixOf (c :: rest) then
      repl ++ replGo pat repl f (List.drop pat.length (c :: rest))
    else
      c :: replGo pat repl f rest

/-- Python `s.replace(pat, repl)`. -/
def pyReplace (s pat repl : String) : String :=
  String.mk (replGo pat.data repl.data s.data.length s.data)

/-- The value-flattening expression of the handler, applied to non-string
results of `/eval` and `/get`:
`f"{result}".replace(']\n', '];').replace('\n', ',')`. -/
def flatten (t : String) : String :=
  pyReplace (pyReplace t "]\n" "];") "\n" ","

/-- The same two-step substitution, written from the specification's words:
first every occurrence of `']'`-newline becomes `"];"`, then every remaining
newline becomes `','`. -/
def specTwoStep (t : String) : String :=
  pyReplace (pyReplace t "]\n" "];") "\n" ","

/-- Substring test (used only in theorem statements). -/
def hasSub : List Char → List Char → Bool
  | [], pat => pat.isEmpty
  | c :: r, pat => pat.isPrefixOf (c :: r) || hasSub r pat

/-- String containment test (used only in theorem statements). -/
def strContains (hay pat : String) : Bool :=
  hasSub hay.data pat.data

/-- A reply is a single protocol frame: exactly one newline, placed at the
end (used only in theorem statements). -/
def oneLine (s : String) : Bool :=
  (s.data.count '\n' == 1) && (s.data.getLast? == some '\n')

/-! ## JSON-representable values -/

/-- JSON-representable Python values: `None`, `bool`, `int`, `str`, `list`,
`dict` with string keys.  Floats are not representable in this embedding. -/
inductive JVal where
  | jNull : JVal
  | jBool : Bool → JVal
  | jInt : Int → JVal
  | jStr : String → JVal
  | jArr : List JVal → JVal
  | jObj : List (String × JVal) → JVal

/-- Values held by the Session Store: a JSON-representable value, or an
opaque executor-native object (for example a numpy array) carrying its
`str()` text, its `repr()` text and its type name. -/
inductive PyValue where
  | ofJson : JVal → PyValue
  | vNative : String → String → String → PyValue

/-- The Session Store (`global_vars`): an association list where the most
recent binding of a name shadows older ones, matching dict upsert as observed
through lookup. -/
abbrev Store := List (String × PyValue)

/-- Store lookup (`name in global_vars` / `global_vars[name]`). -/
def storeFind (n : String) : Store → Option PyValue
  | [] => none
  | (k, v) :: r => if k = n then some v else storeFind n r

/-- Store update (`global_vars[name] = value`). -/
def storeSet (n : String) (v : PyValue) (st : Store) : Store :=
  (n, v) :: st

/-- Python's `isinstance(result, str)` on a modelled value. -/
def isStr : PyValue → Bool
  | .ofJson (.jStr _) => true
  | _ => false

/-- The underlying text of a modelled string value (meaningful when `isStr`
holds). -/
def strVal : PyValue → String
  | .ofJson (.jStr s) => s
  | _ => ""

/-! ## Decimal rendering of integers -/

/-- Decimal digit character. -/
def digCh (n : Nat) : Char :=
  Char.ofNat (48 + n)

/-- Fuelled most-significant-first decimal digits of a natural number,
prepended to `acc`.  Any fuel at least the number itself is sufficient. -/
def natDecGo : Nat → Nat → List Char → List Char
  | 0, n, acc => digCh (n % 10) :: acc
  | f + 1, n, acc =>
    if n < 10 then digCh n :: acc
    else natDecGo f (n / 10) (digCh (n % 10) :: acc)

/-- Decimal digits of a natural number. -/
def natDec (n : Nat) : List Char :=
  natDecGo n n []

/-- Decimal rendering of an integer, as Python prints `int`. -/
def intDec : Int → List Char
  | .ofNat n => natDec n
  | .negSucc m => '-' :: natDec (m + 1)

/-! ## JSON serialization (json.dumps, default options) -/

/-- Lowercase hexadecimal digit character. -/
def hexDig (n : Nat) : Char :=
  if n < 10 then Char.ofNat (48 + n) else Char.ofNat (87 + n)

/-- Four lowercase hex digits of `n % 0x10000`. -/
def hex4 (n : Nat) : List Char :=
  [hexDig (n / 4096 % 16), hexDig (n / 256 % 16), hexDig (n / 16 % 16), hexDig (n % 16)]

/-- Encoding of one character inside a JSON string by the default
(`ensure_ascii=True`) encoder: short escapes for the common controls, plain
printable ASCII, `\uXXXX` for everything else, astral characters as a
surrogate pair. -/
def escChar (c : Char) : List Char :=
  if c = '"' then ['\\', '"']
  else if c = '\\' then ['\\', '\\']
  else if c = '\n' then ['\\', 'n']
  else if c = '\t' then ['\\', 't']
  else if c = '\r' then ['\\', 'r']
  else if c = '\x08' then ['\\', 'b']
  else if c = '\x0c' then ['\\', 'f']
  else if 0x20 ≤ c.toNat ∧ c.toNat ≤ 0x7e then [c]
  else if c.toNat < 0x10000 then '\\' :: 'u' :: hex4 c.toNat
  else
    ('\\' :: 'u' :: hex4 (0xd800 + (c.toNat - 0x10000) / 0x400)) ++
      ('\\' :: 'u' :: hex4 (0xdc00 + (c.toNat - 0x10000) % 0x400))

/-- Encoded body of a JSON string. -/
def escList : List Char → List Char
  | [] => []
  | c :: cs => escChar c ++ escList cs

/-- Full encoding of a JSON string, quotes included. -/
def encStr (s : String) : List Char :=
  '"' :: escList s.data ++ ['"']

mutual

/-- Serialization of a JSON value by `json.dumps` with default options
(item separator `", "`, key separator `": "`). -/
def dumpV : JVal → List Char
  | .jNull => ['n', 'u', 'l', 'l']
  | .jBool true => ['t', 'r', 'u', 'e']
  | .jBool false => ['f', 'a', 'l', 's', 'e']
  | .jInt n => intDec n
  | .jStr s => encStr s
  | .jArr [] => ['[', ']']
  | .jArr (x :: xs) => '[' :: (dumpV x ++ dumpItems xs ++ [']'])
  | .jObj [] => ['{', '}']
  | .jObj ((k, v) :: ms) => '{' :: (encStr k ++ ':' :: ' ' :: dumpV v ++ dumpPairs ms ++ ['}'])

/-- Serialization of the remaining array items, each preceded by `", "`. -/
def dumpItems : List JVal → List Char
  | [] => []
  | x :: xs => ',' :: ' ' :: (dumpV x ++ dumpItems xs)

/-- Serialization of the remaining object members, each preceded by `", "`. -/
def dumpPairs : List (String × JVal) → List Char
  | [] => []
  | (k, v) :: ms => ',' :: ' ' :: (encStr k ++ ':' :: ' ' :: dumpV v ++ dumpPairs ms)

end

/-- Serialized JSON text of a value. -/
def dumpStr (j : JVal) : String :=
  String.mk (dumpV j)

/-- Python's type name of a modelled value (used by the
`json.dumps` failure message). -/
def tyName : PyValue → String
  | .ofJson _ => "object"
  | .vNative _ _ t => t

/-- The handler's use of `json.dumps`: succeeds exactly on
JSON-representable values, fails with a `TypeError` on executor-native
objects. -/
def jsonDumps : PyValue → Option String
  | .ofJson j => some (dumpStr j)
  | .vNative _ _ _ => none

mutual

/-- Python `str()` of a JSON-representable value (`None`/`True`/`False`,
decimal integers, strings verbatim, containers printed with `repr` of their
elements). -/
def jvStr : JVal → String
  | .jNull => "None"
  | .jBool true => "True"
  | .jBool false => "False"
  | .jInt n => String.mk (intDec n)
  | .jStr s => s
  | .jArr xs => "[" ++ jvItems xs ++ "]"
  | .jObj ms => String.mk ('{' :: (jvPairs ms).data ++ ['}'])

/-- Python `repr()` of a JSON-representable value.  The quoting of string
contents is simplified to plain single quotes; no claim depends on `repr`
escape details. -/
def jvRepr : JVal → String
  | .jStr s => "'" ++ s ++ "'"
  | .jNull => "None"
  | .jBool true => "True"
  | .jBool false => "False"
  | .jInt n => String.mk (intDec n)
  | .jArr xs => "[" ++ jvItems xs ++ "]"
  | .jObj ms => String.mk ('{' :: (jvPairs ms).data ++ ['}'])

/-- Comma-separated `repr`s of list elements. -/
def jvItems : List JVal → String
  | [] => ""
  | [x] => jvRepr x
  | x :: y :: xs => jvRepr x ++ ", " ++ jvItems (y :: xs)

/-- Comma-separated `repr`-key/`repr`-value pairs of dict members. -/
def jvPairs : List (String × JVal) → String
  | [] => ""
  | [(k, v)] => "'" ++ k ++ "': " ++ jvRepr v
  | (k, v) :: m :: ms => "'" ++ k ++ "': " ++ jvRepr v ++ ", " ++ jvPairs (m :: ms)

end

/-- Python `str()` of a modelled value, the text interpolated by
`f"{result}"`. -/
def pyStr : PyValue → String
  | .ofJson j => jvStr j
  | .vNative s _ _ => s

/-- Python `repr()` of a modelled value, used by the `/set` success reply. -/
def pyRepr : PyValue → String
  | .ofJson j => jvRepr j
  | .vNative _ r _ => r

/-! ## JSON parsing (json.loads, strict decoder) -/

/-- Value of a hexadecimal digit character. -/
def hexVal (c : Char) : Option Nat :=
  if '0' ≤ c ∧ c ≤ '9' then some (c.toNat - 48)
  else if 'a' ≤ c ∧ c ≤ 'f' then some (c.toNat - 87)
  else if 'A' ≤ c ∧ c ≤ 'F' then some (c.toNat - 55)
  else none

/-- Greedy decimal-digit scan accumulating the value left to right. -/
def digitsAcc : Nat → List Char → Nat × List Char
  | a, [] => (a, [])
  | a, c :: r => if c.isDigit then digitsAcc (a * 10 + (c.toNat - 48)) r else (a, c :: r)

/-- Parse the digit part of a JSON number (leading-zero rule of the JSON
grammar: a lone `0`, or a nonzero digit followed by digits). -/
def parseNatPart : List Char → Option (Nat × List Char)
  | [] => none
  | c :: r =>
    if c = '0' then some (0, r)
    else if c.isDigit then some (digitsAcc (c.toNat - 48) r)
    else none

/-- Parse a JSON number.  Python reads a following fraction or exponent as a
float; floats are outside this embedding, so such numbers are rejected. -/
def parseNum (s : List Char) : Option (Int × List Char) :=
  match s with
  | [] => none
  | c :: r =>
    if c = '-' then
      match parseNatPart r with
      | some (n, r2) =>
        (match r2 with
         | [] => some (-(n : Int), [])
         | c2 :: _ => if c2 = '.' ∨ c2 = 'e' ∨ c2 = 'E' then none else some (-(n : Int), r2))
      | none => none
    else
      match parseNatPart (c :: r) with
      | some (n, r2) =>
        (match r2 with
         | [] => some ((n : Int), [])
         | c2 :: _ => if c2 = '.' ∨ c2 = 'e' ∨ c2 = 'E' then none else some ((n : Int), r2))
      | none => none

/-- Combined value of four hexadecimal digit characters. -/
def hex4Val (h1 h2 h3 h4 : Char) : Option Nat :=
  match hexVal h1, hexVal h2, hexVal h3, hexVal h4 with
  | some a, some b, some c, some d => some (((a * 16 + b) * 16 + c) * 16 + d)
  | _, _, _, _ => none

/-- Continuation of the string scanner after reading `\uXXXX` with value
`u`: a high surrogate must be followed by a second `\uXXXX` low surrogate
and the pair is combined; a lone low surrogate is rejected (it would denote
a string Lean cannot represent); otherwise the character is `u` itself.
`rec` is the scanner resuming on the rest of the input. -/
def uEsc (u : Nat) (r3 : List Char)
    (rec : List Char → Option (List Char × List Char)) :
    Option (List Char × List Char) :=
  if 0xd800 ≤ u ∧ u < 0xdc00 then
    match r3 with
    | '\\' :: 'u' :: g1 :: g2 :: g3 :: g4 :: r4 =>
      match hex4Val g1 g2 g3 g4 with
      | some u2 =>
        if 0xdc00 ≤ u2 ∧ u2 < 0xe000 then
          (rec r4).map (fun p =>
            (Char.ofNat (0x10000 + (u - 0xd800) * 0x400 + (u2 - 0xdc00)) :: p.1, p.2))
        else none
      | none => none
    | _ => none
  else if 0xdc00 ≤ u ∧ u < 0xe000 then none
  else (rec r3).map (fun p => (Char.ofNat u :: p.1, p.2))

/-- Fuelled scan of a JSON string body (after the opening quote), following
Python's strict decoder: raw characters except control characters, quote and
backslash; the short escapes; `\uXXXX` with surrogate-pair combination via
`uEsc`.  Fuel at least the input length is sufficient. -/
def parseStrGo : Nat → List Char → Option (List Char × List Char)
  | 0, _ => none
  | _ + 1, [] => none
  | f + 1, c :: r =>
    if c = '"' then some ([], r)
    else if c = '\\' then
      match r with
      | [] => none
      | e :: r2 =>
        if e = '"' then (parseStrGo f r2).map (fun p => ('"' :: p.1, p.2))
        else if e = '\\' then (parseStrGo f r2).map (fun p => ('\\' :: p.1, p.2))
        else if e = '/' then (parseStrGo f r2).map (fun p => ('/' :: p.1, p.2))
        else if e = 'b' then (parseStrGo f r2).map (fun p => ('\x08' :: p.1, p.2))
        else if e = 'f' then (parseStrGo f r2).map (fun p => ('\x0c' :: p.1, p.2))
        else if e = 'n' then (parseStrGo f r2).map (fun p => ('\n' :: p.1, p.2))
        else if e = 'r' then (parseStrGo f r2).map (fun p => ('\r' :: p.1, p.2))
        else if e = 't' then (parseStrGo f r2).map (fun p => ('\t' :: p.1, p.2))
        else if e = 'u' then
          match r2 with
          | h1 :: h2 :: h3 :: h4 :: r3 =>
            (match hex4Val h1 h2 h3 h4 with
             | some u => uEsc u r3 (parseStrGo f)
             | none => none)
          | _ => none
        else none
    else if c.toNat < 0x20 then none
    else (parseStrGo f r).map (fun p => (c :: p.1, p.2))

/-- Parse a JSON string body (after the opening quote). -/
def parseJStr (s : List Char) : Option (String × List Char) :=
  (parseStrGo (s.length + 1) s).map (fun p => (String.mk p.1, p.2))

/-- Parsing task selector: a single value, the items of a non-empty array,
or the members of a non-empty object. -/
inductive PMode where
  | mval : PMode
  | mitems : PMode
  | mpairs : PMode

/-- Parsing result for the three tasks. -/
inductive POut where
  | oval : JVal → List Char → POut
  | oitems : List JVal → List Char → POut
  | opairs : List (String × JVal) → List Char → POut

/-- Fuelled recursive-descent JSON reader.  `mval` parses one value after
optional whitespace; `mitems` parses `value (, value)* ]` inside an array;
`mpairs` parses `"key" : value (, "key" : value)* \x7d` inside an object.
Each recursive call spends one unit of fuel and at least one character is
consumed per two calls, so fuel `2 * length + 2` is always sufficient. -/
def parseCore : Nat → PMode → List Char → Option POut
  | 0, _, _ => none
  | Nat.succ f, PMode.mval, s =>
    match skipWs s with
    | [] => none
    | c :: r =>
      if c = 'n' then
        match r with
        | 'u' :: 'l' :: 'l' :: r2 => some (.oval .jNull r2)
        | _ => none
      else if c = 't' then
        match r with
        | 'r' :: 'u' :: 'e' :: r2 => some (.oval (.jBool true) r2)
        | _ => none
      else if c = 'f' then
        match r with
        | 'a' :: 'l' :: 's' :: 'e' :: r2 => some (.oval (.jBool false) r2)
        | _ => none
      else if c = '"' then
        match parseJStr r with
        | some (str, r2) => some (.oval (.jStr str) r2)
        | none => none
      else if c = '[' then
        match skipWs r with
        | ']' :: r2 => some (.oval (.jArr []) r2)
        | r2 =>
          match parseCore f PMode.mitems r2 with
          | some (.oitems vs r3) => some (.oval (.jArr vs) r3)
          | _ => none
      else if c = '{' then
        match skipWs r with
        | '}' :: r2 => some (.oval (.jObj []) r2)
        | r2 =>
          match parseCore f PMode.mpairs r2 with
          | some (.opairs ms r3) => some (.oval (.jObj ms) r3)
          | _ => none
      else
        match parseNum (c :: r) with
        | some (n, r2) => some (.oval (.jInt n) r2)
        | none => none
  | Nat.succ f, PMode.mitems, s =>
    match parseCore f PMode.mval s with
    | some (.oval v r) =>
      (match skipWs r with
       | ',' :: r2 =>
         (match parseCore f PMode.mitems r2 with
          | some (.oitems vs r3) => some (.oitems (v :: vs) r3)
          | _ => none)
       | ']' :: r2 => some (.oitems [v] r2)
       | _ => none)
    | _ => none
  | Nat.succ f, PMode.mpairs, s =>
    match skipWs s with
    | '"' :: r =>
      (match parseJStr r with
       | some (k, r2) =>
         (match skipWs r2 with
          | ':' :: r3 =>
            (match parseCore f PMode.mval r3 with
             | some (.oval v r4) =>
               (match skipWs r4 with
                | ',' :: r5 =>
                  (match parseCore f PMode.mpairs r5 with
                   | some (.opairs ms r6) => some (.opairs ((k, v) :: ms) r6)
                   | _ => none)
                | '}' :: r5 => some (.opairs [(k, v)] r5)
                | _ => none)
             | _ => none)
          | _ => none)
       | none => none)
    | _ => none

/-- The handler's use of `json.loads`: parse one document and require that
only whitespace follows, matching the decoder's "Extra data" check. -/
def jsonLoads (s : String) : Option JVal :=
  match parseCore (2 * s.data.length + 2) PMode.mval s.data with
  | some (POut.oval v rest) => if skipWs rest = [] then some v else none
  | _ => none

/-! ## The connection handler -/

/-- Outcome of `eval(arg, globals(), global_vars)` under redirected stdout:
the resulting value or the exception message, the text printed during
evaluation, and the store after any side effects of evaluation. -/
inductive EvalOut where
  | ok : PyValue → String → Store → EvalOut
  | err : String → String → Store → EvalOut

/-- Oracle for Python `eval` on an expression and the current store. -/
abbrev Evaluator := String → Store → EvalOut

/-- Outcome of `exec(arg, globals(), global_vars)`: the store after the
statements ran, or an exception message with the store at the fault. -/
inductive ExecOut where
  | ok : Store → ExecOut
  | err : String → Store → ExecOut

/-- Oracle for Python `exec` on a statement block and the current store. -/
abbrev ExecFn := String → Store → ExecOut

/-- What the connection loop does after a command: continue reading, break
(close this connection), or break after starting server shutdown. -/
inductive ConnAct where
  | aCont : ConnAct
  | aBreak : ConnAct
  | aShutdown : ConnAct
deriving DecidableEq

/-- The verb recognized by the dispatch chain of `handle`. -/
inductive CmdKind where
  | cEval | cExec | cGet | cSet | cSetJson | cGetJson | cExit | cClose | cOther

/-- The if/elif chain on `cmd`. -/
def cmdOf (c : String) : CmdKind :=
  if c = "/eval" then .cEval
  else if c = "/exec" then .cExec
  else if c = "/get" then .cGet
  else if c = "/set" then .cSet
  else if c = "/set_json" then .cSetJson
  else if c = "/get_json" then .cGetJson
  else if c = "/exit" then .cExit
  else if c = "/close" then .cClose
  else .cOther

/-- Result of dispatching one command inside the per-command `try`: either a
normal outcome (replies sent, new store, loop action), or an uncaught
exception with its message and the store at the fault, to be turned into a
`Server error:` reply by the surrounding handler. -/
inductive DOut where
  | done : List String → Store → ConnAct → DOut
  | raised : String → Store → DOut

/-- Message of the `ValueError` raised by unpacking a 1-element split into
two variables, as in `/set` without `=` and `/set_json` without a space. -/
def unpackMsg : String :=
  "not enough values to unpack (expected 2, got 1)"

/-- Message text of a `json.loads` failure.  The position details of the
real message are not modelled; no claim depends on them. -/
def jsonErrText (_s : String) : String :=
  "Expecting value"

/-- Dispatch of one parsed command, translated clause by clause from the
body of `MatlabTcpHandler.handle`. -/
def dispatch (line cmd arg : String) (st : Store) (ev : Evaluator) (ex : ExecFn) : DOut :=
  match cmdOf cmd with
  | .cEval =>
    match ev arg st with
    | .err msg _printed st' => .done ["Eval error: " ++ msg ++ "\n"] st' .aCont
    | .ok v printed st' =>
      let pre := if printed = "" then [] else ["[PYTHON_PRINT]" ++ printed]
      if isStr v then .done (pre ++ ["Result: " ++ strVal v ++ "\n"]) st' .aCont
      else .done (pre ++ ["Result: " ++ flatten (pyStr v) ++ "\n"]) st' .aCont
  | .cExec =>
    match ex arg st with
    | .ok st' => .done ["Exec success\n"] st' .aCont
    | .err msg st' => .raised msg st'
  | .cGet =>
    match storeFind arg st with
    | some v =>
      if isStr v then .done ["\"" ++ strVal v ++ "\"\n"] st .aCont
      else .done [flatten (pyStr v) ++ "\n"] st .aCont
    | none => .done ["Error: Variable '" ++ arg ++ "' not found\n"] st .aCont
  | .cSet =>
    match splitOnce '=' arg with
    | none => .raised unpackMsg st
    | some (rawName, expr) =>
      match ev expr st with
      | .err msg _printed st' => .raised msg st'
      | .ok v _printed st' =>
        .done ["Set '" ++ pyStrip rawName ++ "' to " ++ pyRepr v ++ " success\n"]
          (storeSet (pyStrip rawName) v st') .aCont
  | .cSetJson =>
    match splitOnce ' ' arg with
    | none => .raised unpackMsg st
    | some (rawName, jsonStr) =>
      match jsonLoads jsonStr with
      | none => .done ["Set JSON error: " ++ jsonErrText jsonStr ++ "\n"] st .aCont
      | some j =>
        .done ["Set JSON '" ++ pyStrip rawName ++ "' success\n"]
          (storeSet (pyStrip rawName) (.ofJson j) st) .aCont
  | .cGetJson =>
    match storeFind (pyStrip arg) st with
    | some v =>
      match jsonDumps v with
      | some out => .done [out ++ "\n"] st .aCont
      | none =>
        .done ["Get JSON error: Object of type " ++ tyName v ++
          " is not JSON serializable\n"] st .aCont
    | none => .done ["Error: Variable '" ++ pyStrip arg ++ "' not found\n"] st .aCont
  | .cExit => .done [] st .aBreak
  | .cClose => .done ["Server shutting down.\n"] st .aShutdown
  | .cOther => .done ["Unrecognized command: '" ++ line ++ "'\n"] st .aCont

/-- What one loop iteration produced: the strings passed to `sendall` in
order, the store afterwards, and the loop action. -/
structure StepOut where
  replies : List String
  store : Store
  act : ConnAct

/-- One iteration of the read/dispatch/reply loop of `handle` on the raw
line read from the socket: strip it, break on an empty result, otherwise
split off the verb, dispatch, and turn an uncaught dispatch exception into a
`Server error:` reply with the loop continuing. -/
def handleLine (raw : String) (st : Store) (ev : Evaluator) (ex : ExecFn) : StepOut :=
  let line := pyStrip raw
  if line = "" then ⟨[], st, .aBreak⟩
  else
    match dispatch line (parseCmd line).1 (parseCmd line).2 st ev ex with
    | .done rs st' a => ⟨rs, st', a⟩
    | .raised msg st' => ⟨["Server error: " ++ msg ++ "\n"], st', .aCont⟩

/-- The whole command loop over a list of incoming raw lines: concatenated
replies and final store, stopping at the first break or shutdown. -/
def runConn (lines : List String) (st : Store) (ev : Evaluator) (ex : ExecFn) :
    List String × Store :=
  match lines with
  | [] => ([], st)
  | l :: rest =>
    let r := handleLine l st ev ex
    match r.act with
    | .aCont =>
      let t := runConn rest r.store ev ex
      (r.replies ++ t.1, t.2)
    | _ => (r.replies, r.store)

/-! ## Proof infrastructure definitions -/

/-- Head of the remaining input is not a decimal digit. -/
def headNotDigit : List Char → Prop
  | [] => True
  | c :: _ => c.isDigit = false

/-- The remaining input cannot extend a just-parsed number: its head is not
a digit, a decimal point, or an exponent marker. -/
def restOk : List Char → Prop
  | [] => True
  | c :: _ => c.isDigit = false ∧ c ≠ '.' ∧ c ≠ 'e' ∧ c ≠ 'E'

/-- Fuelled `10 ^ (number of decimal digits)`. -/
def tenPowGo : Nat → Nat → Nat
  | 0, _ => 10
  | f + 1, m => if m < 10 then 10 else 10 * tenPowGo f (m / 10)

/-- `10 ^ (number of decimal digits of m)`. -/
def tenPow (m : Nat) : Nat :=
  tenPowGo m m

/-- Left fold accumulating the value of a decimal digit string. -/
def foldDec (a : Nat) (ds : List Char) : Nat :=
  ds.foldl (fun x c => x * 10 + (c.toNat - 48)) a

/-! ## Concrete oracles used by witnesses and counterexamples -/

/-- An evaluator whose evaluations always fail after printing some text. -/
def evPrintsThenFails : Evaluator :=
  fun _ s => .err "division by zero" "partial output\n" s

/-- An evaluator returning a string value containing an embedded newline. -/
def evMultilineStr : Evaluator :=
  fun _ s => .ok (.ofJson (.jStr "a\nb")) "" s

/-- An evaluator returning an executor-native value whose `str()` text spans
several lines, as a numpy matrix does. -/
def evMatrix : Evaluator :=
  fun _ s => .ok (.vNative "[[1 2]\n [3 4]]" "array([[1, 2], [3, 4]])" "ndarray") "" s

/-- An evaluator returning an integer while printing some text. -/
def evPrintsThenSeven : Evaluator :=
  fun _ s => .ok (.ofJson (.jInt 7)) "hello\n" s

/-- An evaluator returning an integer and printing nothing. -/
def evQuietSeven : Evaluator :=
  fun _ s => .ok (.ofJson (.jInt 7)) "" s

/-- A do-nothing executor oracle. -/
def exNoop : ExecFn :=
  fun _ s => .ok s

/-! ## Basic lemmas about the string helpers and the handler -/

theorem strMkData (s : String) : String.mk s.data = s := rfl

theorem strCatNeEmpty (a b : String) (h : a.data ≠ []) : a ++ b ≠ "" := by
  intro he
  apply h
  have hd : (a ++ b).data = [] := by rw [he]
  rw [String.data_append] at hd
  exact (List.append_eq_nil.mp hd).1

theorem splitPre (pre : List Char) (h : ∀ c ∈ pre, c ≠ ' ') (n : List Char) :
    splitOnceL ' ' (pre ++ ' ' :: n) = some (pre, n) := by
  induction pre with
  | nil => simp [splitOnceL]
  | cons c cs ih =>
    have hc : c ≠ ' ' := h c (by simp)
    have ih' := ih (fun x hx => h x (by simp [hx]))
    simp [splitOnceL, hc, ih']

theorem parseCmd_cat (c n : String) (h : ∀ ch ∈ c.data, ch ≠ ' ') :
    parseCmd (c ++ " " ++ n) = (c, n) := by
  have hd : (c ++ " " ++ n).data = c.data ++ ' ' :: n.data := by
    rw [String.data_append, String.data_append, List.append_assoc]
    rfl
  unfold parseCmd splitOnce
  rw [hd, splitPre c.data h n.data]
  rfl

theorem handleLine_eq (raw line c a : String) (st : Store) (ev : Evaluator) (ex : ExecFn)
    (hline : pyStrip raw = line) (hne : line ≠ "") (hparse : parseCmd line = (c, a)) :
    handleLine raw st ev ex =
      (match dispatch line c a st ev ex with
       | .done rs st' act => ⟨rs, st', act⟩
       | .raised msg st' => ⟨["Server error: " ++ msg ++ "\n"], st', .aCont⟩) := by
  simp only [handleLine]
  rw [hline, if_neg hne, hparse]

theorem dispatch_eval (line a : String) (st : Store) (ev : Evaluator) (ex : ExecFn) :
    dispatch line "/eval" a st ev ex =
      (match ev a st with
       | .err msg _printed st' => .done ["Eval error: " ++ msg ++ "\n"] st' .aCont
       | .ok v printed st' =>
         if isStr v then
           .done ((if printed = "" then [] else ["[PYTHON_PRINT]" ++ printed]) ++
             ["Result: " ++ strVal v ++ "\n"]) st' .aCont
         else
           .done ((if printed = "" then [] else ["[PYTHON_PRINT]" ++ printed]) ++
             ["Result: " ++ flatten (pyStr v) ++ "\n"]) st' .aCont) := rfl

theorem dispatch_get (line a : String) (st : Store) (ev : Evaluator) (ex : ExecFn) :
    dispatch line "/get" a st ev ex =
      (match storeFind a st with
       | some v =>
         if isStr v then .done ["\"" ++ strVal v ++ "\"\n"] st .aCont
         else .done [flatten (pyStr v) ++ "\n"] st .aCont
       | none => .done ["Error: Variable '" ++ a ++ "' not found\n"] st .aCont) := rfl

theorem dispatch_set (line a : String) (st : Store) (ev : Evaluator) (ex : ExecFn) :
    dispatch line "/set" a st ev ex =
      (match splitOnce '=' a with
       | none => .raised unpackMsg st
       | some (rawName, expr) =>
         match ev expr st with
         | .err msg _printed st' => .raised msg st'
         | .ok v _printed st' =>
           .done ["Set '" ++ pyStrip rawName ++ "' to " ++ pyRepr v ++ " success\n"]
             (storeSet (pyStrip rawName) v st') .aCont) := rfl

theorem dispatch_set_json (line a : String) (st : Store) (ev : Evaluator) (ex : ExecFn) :
    dispatch line "/set_json" a st ev ex =
      (match splitOnce ' ' a with
       | none => .raised unpackMsg st
       | some (rawName, jsonStr) =>
         match jsonLoads jsonStr with
         | none => .done ["Set JSON error: " ++ jsonErrText jsonStr ++ "\n"] st .aCont
         | some j =>
           .done ["Set JSON '" ++ pyStrip rawName ++ "' success\n"]
             (storeSet (pyStrip rawName) (.ofJson j) st) .aCont) := rfl

theorem dispatch_get_json (line a : String) (st : Store) (ev : Evaluator) (ex : ExecFn) :
    dispatch line "/get_json" a st ev ex =
      (match storeFind (pyStrip a) st with
       | some v =>
         match jsonDumps v with
         | some out => .done [out ++ "\n"] st .aCont
         | none =>
           .done ["Get JSON error: Object of type " ++ tyName v ++
             " is not JSON serializable\n"] st .aCont
       | none => .done ["Error: Variable '" ++ pyStrip a ++ "' not found\n"] st .aCont) := rfl

theorem runConn_cons (l : String) (rest : List String) (st : Store) (ev : Evaluator)
    (ex : ExecFn) (h : (handleLine l st ev ex).act = ConnAct.aCont) :
    runConn (l :: rest) st ev ex =
      ((handleLine l st ev ex).replies ++ (runConn rest (handleLine l st ev ex).store ev ex).1,
        (runConn rest (handleLine l st ev ex).store ev ex).2) := by
  simp only [runConn]
  rw [h]

theorem replNl (f : Nat) (s : List Char) (hf : s.length ≤ f) :
    '\n' ∉ replGo ['\n'] [','] f s := by
  induction f generalizing s with
  | zero =>
    have hs : s = [] := List.length_eq_zero.mp (Nat.le_zero.mp hf)
    subst hs
    simp [replGo]
  | succ f ih =>
    match s with
    | [] => simp [replGo]
    | c :: rest =>
      have hlen : rest.length ≤ f := by
        simpa using Nat.le_of_succ_le_succ (by simpa using hf)
      by_cases hc : c = '\n'
      · subst hc
        have hcond : (['\n'] : List Char) ≠ [] ∧ List.isPrefixOf ['\n'] ('\n' :: rest) := by
          refine ⟨by simp, ?_⟩
          simp [List.isPrefixOf]
        simp only [replGo, if_pos hcond, List.length_cons, List.length_nil]
        intro hmem
        rcases List.mem_append.mp hmem with hx | hx
        · simp at hx
        · exact ih (List.drop 1 ('\n' :: rest)) (by simpa using hlen) hx
      · have hcond : ¬((['\n'] : List Char) ≠ [] ∧ List.isPrefixOf ['\n'] (c :: rest)) := by
          intro hh
          have h2 := hh.2
          simp [List.isPrefixOf] at h2
          exact hc h2.symm
        simp only [replGo, if_neg hcond]
        intro hmem
        rcases List.mem_cons.mp hmem with hx | hx
        · exact hc hx.symm
        · exact ih rest hlen hx

theorem noNlFlat (t : String) : '\n' ∉ (flatten t).data := by
  exact replNl (pyReplace t "]\n" "];").data.length (pyReplace t "]\n" "];").data le_rfl

theorem oneLineCat (s : String) (h : '\n' ∉ s.data) : oneLine (s ++ "\n") = true := by
  have h1 : ((s ++ "\n").data).count '\n' = 1 := by
    rw [String.data_append, show ("\n" : String).data = ['\n'] from rfl, List.count_append]
    simp [List.count_eq_zero.mpr h]
  have h2 : ((s ++ "\n").data).getLast? = some '\n' := by
    rw [String.data_append, show ("\n" : String).data = ['\n'] from rfl]
    exact List.getLast?_concat _
  unfold oneLine
  rw [h1, h2]
  rfl

/-! ## Claims C4 and C8 -/

/-- C4: for every name `n` not present in the Session Store, `/get n`
replies exactly `Error: Variable '<n>' not found\n`, leaves the Store
unchanged, and the connection continues. -/
theorem c4_get_absent (n : String) (st : Store) (ev : Evaluator) (ex : ExecFn)
    (hclean : pyStrip ("/get " ++ n) = "/get " ++ n)
    (habs : storeFind n st = none) :
    handleLine ("/get " ++ n) st ev ex =
      ⟨["Error: Variable '" ++ n ++ "' not found\n"], st, .aCont⟩ := by
  rw [handleLine_eq _ _ "/get" n st ev ex hclean
    (strCatNeEmpty _ _ (by decide))
    (by rw [show ("/get " ++ n : String) = "/get" ++ " " ++ n from rfl]
        exact parseCmd_cat "/get" n (by decide))]
  rw [dispatch_get, habs]

/-- C4 witness at a concrete absent name and non-empty store. -/
theorem c4_get_absent_witness :
    handleLine ("/get " ++ "y") [("x", .ofJson (.jInt 5))] evQuietSeven exNoop =
      ⟨["Error: Variable '" ++ "y" ++ "' not found\n"], [("x", .ofJson (.jInt 5))], .aCont⟩ :=
  c4_get_absent "y" [("x", .ofJson (.jInt 5))] evQuietSeven exNoop rfl rfl

/-- C8: a raw line that strips to the empty string ends the connection with
no reply and an unchanged Store, and `/exit` produces exactly the same step
outcome. -/
theorem c8_empty_line_exits (raw : String) (st : Store) (ev : Evaluator) (ex : ExecFn)
    (h : pyStrip raw = "") :
    handleLine raw st ev ex = ⟨[], st, .aBreak⟩ ∧
      handleLine "/exit" st ev ex = ⟨[], st, .aBreak⟩ := by
  constructor
  · simp only [handleLine]
    rw [h]
    rfl
  · rfl

/-- C8 witness: the empty raw line itself. -/
theorem c8_empty_line_exits_witness :
    handleLine "" [("x", .ofJson (.jInt 5))] evQuietSeven exNoop = ⟨[], [("x", .ofJson (.jInt 5))], .aBreak⟩ ∧
      handleLine "/exit" [("x", .ofJson (.jInt 5))] evQuietSeven exNoop = ⟨[], [("x", .ofJson (.jInt 5))], .aBreak⟩ :=
  c8_empty_line_exits "" [("x", .ofJson (.jInt 5))] evQuietSeven exNoop rfl

theorem splitNone (sep : Char) (l : List Char) (h : ∀ c ∈ l, c ≠ sep) :
    splitOnceL sep l = none := by
  induction l with
  | nil => rfl
  | cons c cs ih =>
    have hc : c ≠ sep := h c (by simp)
    have ih' := ih (fun x hx => h x (by simp [hx]))
    simp [splitOnceL, hc, ih']

/-! ## Claims C5, C6, C7 -/

/-- C5: an exception raised by command processing that is not handled by a
verb's own handler is caught inside the command loop, answered with
`Server error: <message>\n`, and the read/dispatch loop keeps processing the
following commands of the connection. -/
theorem c5_server_error_continues (raw msg : String) (st st' : Store) (ev : Evaluator)
    (ex : ExecFn) (rest : List String)
    (hne : pyStrip raw ≠ "")
    (hraise : dispatch (pyStrip raw) (parseCmd (pyStrip raw)).1 (parseCmd (pyStrip raw)).2
        st ev ex = .raised msg st') :
    handleLine raw st ev ex = ⟨["Server error: " ++ msg ++ "\n"], st', .aCont⟩ ∧
      runConn (raw :: rest) st ev ex =
        (("Server error: " ++ msg ++ "\n") :: (runConn rest st' ev ex).1,
          (runConn rest st' ev ex).2) := by
  have h1 : handleLine raw st ev ex = ⟨["Server error: " ++ msg ++ "\n"], st', .aCont⟩ := by
    rw [handleLine_eq raw (pyStrip raw) (parseCmd (pyStrip raw)).1
      (parseCmd (pyStrip raw)).2 st ev ex rfl hne rfl, hraise]
  refine ⟨h1, ?_⟩
  rw [runConn_cons raw rest st ev ex (by rw [h1]), h1]
  rfl

/-- C5 witness: `/set x` (no `=`) raises a `ValueError` during unpacking,
which the loop converts into a `Server error:` reply and survives. -/
theorem c5_server_error_continues_witness :
    handleLine "/set x" [] evQuietSeven exNoop =
        ⟨["Server error: " ++ unpackMsg ++ "\n"], [], .aCont⟩ ∧
      runConn ["/set x"] [] evQuietSeven exNoop =
        (("Server error: " ++ unpackMsg ++ "\n") :: (runConn [] [] evQuietSeven exNoop).1,
          (runConn [] [] evQuietSeven exNoop).2) :=
  c5_server_error_continues "/set x" unpackMsg [] [] evQuietSeven exNoop []
    (by decide) rfl

/-- C6: a `/set` whose argument has no `=` is caught per-command, reported
as a `Server error:` line carrying the unpacking `ValueError` message, the
Store is unchanged, and the loop continues with the following commands. -/
theorem c6_set_missing_eq (a : String) (st : Store) (ev : Evaluator) (ex : ExecFn)
    (rest : List String)
    (hclean : pyStrip ("/set " ++ a) = "/set " ++ a)
    (hnoeq : ∀ c ∈ a.data, c ≠ '=') :
    handleLine ("/set " ++ a) st ev ex =
        ⟨["Server error: " ++ unpackMsg ++ "\n"], st, .aCont⟩ ∧
      runConn (("/set " ++ a) :: rest) st ev ex =
        (("Server error: " ++ unpackMsg ++ "\n") :: (runConn rest st ev ex).1,
          (runConn rest st ev ex).2) := by
  have hsplit : splitOnce '=' a = none := by
    unfold splitOnce
    rw [splitNone '=' a.data hnoeq]
    rfl
  have h1 : handleLine ("/set " ++ a) st ev ex =
      ⟨["Server error: " ++ unpackMsg ++ "\n"], st, .aCont⟩ := by
    rw [handleLine_eq _ _ "/set" a st ev ex hclean
      (strCatNeEmpty _ _ (by decide))
      (by rw [show ("/set " ++ a : String) = "/set" ++ " " ++ a from rfl]
          exact parseCmd_cat "/set" a (by decide))]
    rw [dispatch_set, hsplit]
  refine ⟨h1, ?_⟩
  rw [runConn_cons _ rest st ev ex (by rw [h1]), h1]
  rfl

/-- C6 witness: `/set xyz` with a further command still being served. -/
theorem c6_set_missing_eq_witness :
    handleLine ("/set " ++ "xyz") [] evQuietSeven exNoop =
        ⟨["Server error: " ++ unpackMsg ++ "\n"], [], .aCont⟩ ∧
      runConn (("/set " ++ "xyz") :: ["/exit"]) [] evQuietSeven exNoop =
        (("Server error: " ++ unpackMsg ++ "\n") ::
            (runConn ["/exit"] [] evQuietSeven exNoop).1,
          (runConn ["/exit"] [] evQuietSeven exNoop).2) :=
  c6_set_missing_eq "xyz" [] evQuietSeven exNoop ["/exit"] rfl (by decide)

/-- C7: a successful `/eval` that captured output forwards the captured text
first as one frame prefixed with the fixed `[PYTHON_PRINT]` tag, then sends
the `Result:` reply; when nothing was captured no tagged frame is sent. -/
theorem c7_captured_first (a printed : String) (v : PyValue) (st st' : Store)
    (ev : Evaluator) (ex : ExecFn)
    (hclean : pyStrip ("/eval " ++ a) = "/eval " ++ a)
    (hev : ev a st = .ok v printed st') :
    (handleLine ("/eval " ++ a) st ev ex).replies =
      (if printed = "" then [] else ["[PYTHON_PRINT]" ++ printed]) ++
        ["Result: " ++ (if isStr v then strVal v else flatten (pyStr v)) ++ "\n"] := by
  rw [handleLine_eq _ _ "/eval" a st ev ex hclean
    (strCatNeEmpty _ _ (by decide))
    (by rw [show ("/eval " ++ a : String) = "/eval" ++ " " ++ a from rfl]
        exact parseCmd_cat "/eval" a (by decide))]
  rw [dispatch_eval, hev]
  cases hs : isStr v <;> simp [hs]

/-- C7 witness: an evaluation printing `hello` and returning `7`, and the
assembled reply sequence. -/
theorem c7_captured_first_witness :
    (handleLine ("/eval " ++ "f(1)") [] evPrintsThenSeven exNoop).replies =
      (if ("hello\n" : String) = "" then [] else ["[PYTHON_PRINT]" ++ "hello\n"]) ++
        ["Result: " ++
          (if isStr (.ofJson (.jInt 7)) then strVal (.ofJson (.jInt 7))
           else flatten (pyStr (.ofJson (.jInt 7)))) ++ "\n"] :=
  c7_captured_first "f(1)" "hello\n" (.ofJson (.jInt 7)) [] [] evPrintsThenSeven exNoop
    rfl rfl

/-! ## Claim C2 -/

/-- C2 counterexample: an evaluation that printed `partial output` and then
failed produces exactly the `Eval error:` reply; the pre-fault text is not
returned to the client (the claim says it is returned in addition). -/
theorem c2_cex :
    (handleLine "/eval print(1); 1/0" [] evPrintsThenFails exNoop).replies =
        ["Eval error: division by zero\n"] ∧
      strContains "Eval error: division by zero\n" "partial output" = false :=
  ⟨rfl, rfl⟩

/-- C2 as amended: when `/eval` raises after printing, the capture is torn
down and the loop continues with the `Eval error: <message>` reply as the
only frame sent; the text captured before the fault is discarded, not
forwarded to the client. -/
theorem c2_eval_error_discards_output (a msg printed : String) (st st' : Store)
    (ev : Evaluator) (ex : ExecFn)
    (hclean : pyStrip ("/eval " ++ a) = "/eval " ++ a)
    (hev : ev a st = .err msg printed st') :
    handleLine ("/eval " ++ a) st ev ex =
      ⟨["Eval error: " ++ msg ++ "\n"], st', .aCont⟩ := by
  rw [handleLine_eq _ _ "/eval" a st ev ex hclean
    (strCatNeEmpty _ _ (by decide))
    (by rw [show ("/eval " ++ a : String) = "/eval" ++ " " ++ a from rfl]
        exact parseCmd_cat "/eval" a (by decide))]
  rw [dispatch_eval, hev]

/-- C2 witness for the amended statement. -/
theorem c2_eval_error_discards_output_witness :
    handleLine ("/eval " ++ "print(1); 1/0") [] evPrintsThenFails exNoop =
      ⟨["Eval error: " ++ "division by zero" ++ "\n"], [], .aCont⟩ :=
  c2_eval_error_discards_output "print(1); 1/0" "division by zero" "partial output\n"
    [] [] evPrintsThenFails exNoop rfl rfl

/-! ## Claim C3 -/

/-- C3 counterexample: a string value with an embedded line break is sent
verbatim by `/eval`, so the reply is not one newline-terminated line. -/
theorem c3_cex :
    (handleLine "/eval s" [] evMultilineStr exNoop).replies = ["Result: a\nb\n"] ∧
      oneLine "Result: a\nb\n" = false :=
  ⟨rfl, rfl⟩

/-- C3 as amended: for every non-string value rendered by `/eval` or `/get`
the rendering collapses all internal line breaks, so the reply is exactly one
newline-terminated line; string values are sent verbatim and may span
several lines. -/
theorem c3_flatten_nonstring (a n printed : String) (v : PyValue) (st st' : Store)
    (ev : Evaluator) (ex : ExecFn)
    (hv : isStr v = false)
    (hcleanE : pyStrip ("/eval " ++ a) = "/eval " ++ a)
    (hev : ev a st = .ok v printed st')
    (hcleanG : pyStrip ("/get " ++ n) = "/get " ++ n)
    (hfind : storeFind n st = some v) :
    (handleLine ("/eval " ++ a) st ev ex).replies =
      (if printed = "" then [] else ["[PYTHON_PRINT]" ++ printed]) ++
        ["Result: " ++ flatten (pyStr v) ++ "\n"] ∧
    (handleLine ("/get " ++ n) st ev ex).replies = [flatten (pyStr v) ++ "\n"] ∧
    oneLine ("Result: " ++ flatten (pyStr v) ++ "\n") = true ∧
    oneLine (flatten (pyStr v) ++ "\n") = true := by
  refine ⟨?_, ?_, ?_, ?_⟩
  · rw [handleLine_eq _ _ "/eval" a st ev ex hcleanE
      (strCatNeEmpty _ _ (by decide))
      (by rw [show ("/eval " ++ a : String) = "/eval" ++ " " ++ a from rfl]
          exact parseCmd_cat "/eval" a (by decide))]
    rw [dispatch_eval, hev]
    simp [hv]
  · rw [handleLine_eq _ _ "/get" n st ev ex hcleanG
      (strCatNeEmpty _ _ (by decide))
      (by rw [show ("/get " ++ n : String) = "/get" ++ " " ++ n from rfl]
          exact parseCmd_cat "/get" n (by decide))]
    rw [dispatch_get, hfind]
    simp [hv]
  · have hnl : '\n' ∉ ("Result: " ++ flatten (pyStr v)).data := by
      rw [String.data_append]
      intro hm
      rcases List.mem_append.mp hm with hx | hx
      · revert hx
        decide
      · exact noNlFlat (pyStr v) hx
    exact oneLineCat _ hnl
  · exact oneLineCat _ (noNlFlat (pyStr v))

/-- C3 witness for the amended statement: a numpy-style matrix text with
embedded newlines, rendered through `/eval` and `/get`. -/
theorem c3_flatten_nonstring_witness :
    (handleLine ("/eval " ++ "m") [("m", .vNative "[[1 2]\n [3 4]]" "array([[1, 2], [3, 4]])" "ndarray")] evMatrix exNoop).replies =
      (if ("" : String) = "" then [] else ["[PYTHON_PRINT]" ++ ""]) ++
        ["Result: " ++ flatten (pyStr (.vNative "[[1 2]\n [3 4]]" "array([[1, 2], [3, 4]])" "ndarray")) ++ "\n"] ∧
    (handleLine ("/get " ++ "m") [("m", .vNative "[[1 2]\n [3 4]]" "array([[1, 2], [3, 4]])" "ndarray")] evMatrix exNoop).replies =
      [flatten (pyStr (.vNative "[[1 2]\n [3 4]]" "array([[1, 2], [3, 4]])" "ndarray")) ++ "\n"] ∧
    oneLine ("Result: " ++ flatten (pyStr (.vNative "[[1 2]\n [3 4]]" "array([[1, 2], [3, 4]])" "ndarray")) ++ "\n") = true ∧
    oneLine (flatten (pyStr (.vNative "[[1 2]\n [3 4]]" "array([[1, 2], [3, 4]])" "ndarray")) ++ "\n") = true :=
  c3_flatten_nonstring "m" "m" "" (.vNative "[[1 2]\n [3 4]]" "array([[1, 2], [3, 4]])" "ndarray")
    [("m", .vNative "[[1 2]\n [3 4]]" "array([[1, 2], [3, 4]])" "ndarray")]
    [("m", .vNative "[[1 2]\n [3 4]]" "array([[1, 2], [3, 4]])" "ndarray")]
    evMatrix exNoop rfl rfl rfl rfl rfl

/-! ## Claim C10 -/

/-- C10: the rendering of a non-string value by `/eval` and `/get` is
exactly the deterministic two-step text substitution on the value's textual
form, substituting `"];"` for every `']'`-newline pair first and then `','`
for every remaining newline, in that order. -/
theorem c10_two_step_substitution (a n printed : String) (v : PyValue) (st st' : Store)
    (ev : Evaluator) (ex : ExecFn)
    (hv : isStr v = false)
    (hcleanE : pyStrip ("/eval " ++ a) = "/eval " ++ a)
    (hev : ev a st = .ok v printed st')
    (hcleanG : pyStrip ("/get " ++ n) = "/get " ++ n)
    (hfind : storeFind n st = some v) :
    flatten (pyStr v) = specTwoStep (pyStr v) ∧
    (handleLine ("/eval " ++ a) st ev ex).replies =
      (if printed = "" then [] else ["[PYTHON_PRINT]" ++ printed]) ++
        ["Result: " ++ specTwoStep (pyStr v) ++ "\n"] ∧
    (handleLine ("/get " ++ n) st ev ex).replies = [specTwoStep (pyStr v) ++ "\n"] := by
  refine ⟨rfl, ?_, ?_⟩
  · rw [handleLine_eq _ _ "/eval" a st ev ex hcleanE
      (strCatNeEmpty _ _ (by decide))
      (by rw [show ("/eval " ++ a : String) = "/eval" ++ " " ++ a from rfl]
          exact parseCmd_cat "/eval" a (by decide))]
    rw [dispatch_eval, hev]
    simp [hv]
    rfl
  · rw [handleLine_eq _ _ "/get" n st ev ex hcleanG
      (strCatNeEmpty _ _ (by decide))
      (by rw [show ("/get " ++ n : String) = "/get" ++ " " ++ n from rfl]
          exact parseCmd_cat "/get" n (by decide))]
    rw [dispatch_get, hfind]
    simp [hv]
    rfl

/-- C10 witness: the matrix text `[[1 2]\n [3 4]]` rendered through both
verbs. -/
theorem c10_two_step_substitution_witness :
    flatten (pyStr (.vNative "[[1 2]\n [3 4]]" "array([[1, 2], [3, 4]])" "ndarray")) =
      specTwoStep (pyStr (.vNative "[[1 2]\n [3 4]]" "array([[1, 2], [3, 4]])" "ndarray")) ∧
    (handleLine ("/eval " ++ "m") [("m", .vNative "[[1 2]\n [3 4]]" "array([[1, 2], [3, 4]])" "ndarray")] evMatrix exNoop).replies =
      (if ("" : String) = "" then [] else ["[PYTHON_PRINT]" ++ ""]) ++
        ["Result: " ++ specTwoStep (pyStr (.vNative "[[1 2]\n [3 4]]" "array([[1, 2], [3, 4]])" "ndarray")) ++ "\n"] ∧
    (handleLine ("/get " ++ "m") [("m", .vNative "[[1 2]\n [3 4]]" "array([[1, 2], [3, 4]])" "ndarray")] evMatrix exNoop).replies =
      [specTwoStep (pyStr (.vNative "[[1 2]\n [3 4]]" "array([[1, 2], [3, 4]])" "ndarray")) ++ "\n"] :=
  c10_two_step_substitution "m" "m" "" (.vNative "[[1 2]\n [3 4]]" "array([[1, 2], [3, 4]])" "ndarray")
    [("m", .vNative "[[1 2]\n [3 4]]" "array([[1, 2], [3, 4]])" "ndarray")]
    [("m", .vNative "[[1 2]\n [3 4]]" "array([[1, 2], [3, 4]])" "ndarray")]
    evMatrix exNoop rfl rfl rfl rfl rfl

/-! ## Claim C9 -/

/-- C9: `/get` looks up the raw remainder of the line after the first space
with no trimming, while `/get_json` strips its name argument before lookup;
with an extra space before the name, `/get` reports the variable as not
found while `/get_json` answers with the serialized value. -/
theorem c9_get_raw_vs_getjson_trimmed (n : String) (j : JVal) (st : Store)
    (ev : Evaluator) (ex : ExecFn)
    (htrim : pyStrip (" " ++ n) = n)
    (hclean1 : pyStrip ("/get  " ++ n) = "/get  " ++ n)
    (hclean2 : pyStrip ("/get_json  " ++ n) = "/get_json  " ++ n)
    (hfound : storeFind n st = some (.ofJson j))
    (habs : storeFind (" " ++ n) st = none) :
    (handleLine ("/get  " ++ n) st ev ex).replies =
      ["Error: Variable '" ++ (" " ++ n) ++ "' not found\n"] ∧
    (handleLine ("/get_json  " ++ n) st ev ex).replies = [dumpStr j ++ "\n"] := by
  constructor
  · rw [handleLine_eq _ _ "/get" (" " ++ n) st ev ex hclean1
      (strCatNeEmpty _ _ (by decide))
      (by rw [show ("/get  " ++ n : String) = "/get" ++ " " ++ (" " ++ n) from rfl]
          exact parseCmd_cat "/get" (" " ++ n) (by decide))]
    rw [dispatch_get, habs]
  · rw [handleLine_eq _ _ "/get_json" (" " ++ n) st ev ex hclean2
      (strCatNeEmpty _ _ (by decide))
      (by rw [show ("/get_json  " ++ n : String) = "/get_json" ++ " " ++ (" " ++ n) from rfl]
          exact parseCmd_cat "/get_json" (" " ++ n) (by decide))]
    rw [dispatch_get_json, htrim, hfound]
    rfl

/-- C9 witness: store holding `x`, commands `/get  x` and `/get_json  x`. -/
theorem c9_get_raw_vs_getjson_trimmed_witness :
    (handleLine ("/get  " ++ "x") [("x", .ofJson (.jInt 5))] evQuietSeven exNoop).replies =
      ["Error: Variable '" ++ (" " ++ "x") ++ "' not found\n"] ∧
    (handleLine ("/get_json  " ++ "x") [("x", .ofJson (.jInt 5))] evQuietSeven exNoop).replies =
      [dumpStr (.jInt 5) ++ "\n"] :=
  c9_get_raw_vs_getjson_trimmed "x" (.jInt 5) [("x", .ofJson (.jInt 5))]
    evQuietSeven exNoop rfl rfl rfl rfl rfl

/-! ## Character facts -/

theorem chValid (c : Char) : c.toNat < 0xd800 ∨ (0xdfff < c.toNat ∧ c.toNat < 0x110000) :=
  c.valid

theorem chOfNatToNat (c : Char) : Char.ofNat c.toNat = c := by
  have hv : Nat.isValidChar c.toNat := c.valid
  rw [Char.ofNat, dif_pos hv]
  apply Char.eq_of_val_eq
  apply UInt32.eq_of_toBitVec_eq
  apply BitVec.eq_of_toNat_eq
  simp [Char.ofNatAux]
  rfl

theorem digChProps (k : Nat) (hk : k < 10) :
    (digCh k).isDigit = true ∧ (digCh k).toNat = 48 + k ∧ jWs (digCh k) = false ∧
    digCh k ≠ '-' ∧ digCh k ≠ 'n' ∧ digCh k ≠ 't' ∧ digCh k ≠ 'f' ∧ digCh k ≠ '"' ∧
    digCh k ≠ '[' ∧ digCh k ≠ '{' ∧ digCh k ≠ '.' ∧ digCh k ≠ 'e' ∧ digCh k ≠ 'E' ∧
    digCh k ≠ ']' ∧ (1 ≤ k → digCh k ≠ '0') ∧ (k = 0 → digCh k = '0') ∧ digCh k ≠ '}' := by
  interval_cases k <;> exact (by decide)

theorem hexValHexDig (x : Nat) (hx : x < 16) : hexVal (hexDig x) = some x := by
  interval_cases x <;> exact (by decide)

/-! ## Decimal digits round-trip -/

theorem natDecGoIrrel : ∀ f1 f2 m acc, m ≤ f1 → m ≤ f2 →
    natDecGo f1 m acc = natDecGo f2 m acc := by
  intro f1
  induction f1 with
  | zero =>
    intro f2 m acc h1 _
    have hm : m = 0 := Nat.le_zero.mp h1
    subst hm
    cases f2 <;> simp [natDecGo]
  | succ f ih =>
    intro f2 m acc _ h2
    cases f2 with
    | zero =>
      have hm : m = 0 := Nat.le_zero.mp h2
      subst hm
      simp [natDecGo]
    | succ g =>
      by_cases hm : m < 10
      · simp [natDecGo, hm]
      · simp only [natDecGo, if_neg hm]
        exact ih g (m / 10) _ (by omega) (by omega)

theorem natDecGoAcc : ∀ f m acc, natDecGo f m acc = natDecGo f m [] ++ acc := by
  intro f
  induction f with
  | zero => intro m acc; simp [natDecGo]
  | succ f ih =>
    intro m acc
    by_cases hm : m < 10
    · simp [natDecGo, hm]
    · simp only [natDecGo, if_neg hm]
      rw [ih (m / 10) (digCh (m % 10) :: acc), ih (m / 10) [digCh (m % 10)]]
      simp

theorem natDec_eq (m : Nat) :
    natDec m = if m < 10 then [digCh m] else natDec (m / 10) ++ [digCh (m % 10)] := by
  by_cases hm : m < 10
  · rw [if_pos hm]
    cases m with
    | zero => rfl
    | succ k =>
      show natDecGo (k + 1) (k + 1) [] = [digCh (k + 1)]
      simp [natDecGo, hm]
  · rw [if_neg hm]
    have h1 : 1 ≤ m := by omega
    obtain ⟨f, hf⟩ : ∃ f, m = f + 1 := ⟨m - 1, by omega⟩
    show natDecGo m m [] = _
    rw [hf]
    simp only [natDecGo, if_neg (by omega : ¬ f + 1 < 10)]
    rw [natDecGoAcc f ((f + 1) / 10) [digCh ((f + 1) % 10)]]
    rw [natDecGoIrrel f ((f + 1) / 10) ((f + 1) / 10) [] (by omega) le_rfl]
    rw [← hf]
    rfl

theorem ndAll (m : Nat) : ∀ c ∈ natDec m, c.isDigit = true := by
  induction m using Nat.strong_induction_on with
  | _ m ih =>
    rw [natDec_eq]
    by_cases hm : m < 10
    · rw [if_pos hm]
      intro c hc
      simp at hc
      subst hc
      exact (digChProps m hm).1
    · rw [if_neg hm]
      intro c hc
      rcases List.mem_append.mp hc with hx | hx
      · exact ih (m / 10) (Nat.div_lt_self (by omega) (by omega)) c hx
      · simp at hx
        subst hx
        exact (digChProps (m % 10) (by omega)).1

theorem ndHead (m : Nat) : ∃ k cs, k < 10 ∧ natDec m = digCh k :: cs ∧ (1 ≤ m → 1 ≤ k) := by
  induction m using Nat.strong_induction_on with
  | _ m ih =>
    rw [natDec_eq]
    by_cases hm : m < 10
    · exact ⟨m, [], hm, by rw [if_pos hm], fun h => h⟩
    · rw [if_neg hm]
      obtain ⟨k, cs, hk, hEq, h1⟩ := ih (m / 10) (Nat.div_lt_self (by omega) (by omega))
      exact ⟨k, cs ++ [digCh (m % 10)], hk, by rw [hEq]; rfl, fun _ => h1 (by omega)⟩

theorem tenPowGoIrrel : ∀ f1 f2 m, m ≤ f1 → m ≤ f2 → tenPowGo f1 m = tenPowGo f2 m := by
  intro f1
  induction f1 with
  | zero =>
    intro f2 m h1 _
    have hm : m = 0 := Nat.le_zero.mp h1
    subst hm
    cases f2 <;> simp [tenPowGo]
  | succ f ih =>
    intro f2 m _ h2
    cases f2 with
    | zero =>
      have hm : m = 0 := Nat.le_zero.mp h2
      subst hm
      simp [tenPowGo]
    | succ g =>
      by_cases hm : m < 10
      · simp [tenPowGo, hm]
      · simp only [tenPowGo, if_neg hm]
        rw [ih g (m / 10) (by omega) (by omega)]

theorem tenPow_eq (m : Nat) :
    tenPow m = if m < 10 then 10 else 10 * tenPow (m / 10) := by
  by_cases hm : m < 10
  · rw [if_pos hm]
    show tenPowGo m m = 10
    cases m with
    | zero => rfl
    | succ k => simp [tenPowGo, hm]
  · rw [if_neg hm]
    obtain ⟨f, hf⟩ : ∃ f, m = f + 1 := ⟨m - 1, by omega⟩
    show tenPowGo m m = _
    rw [hf]
    simp only [tenPowGo, if_neg (by omega : ¬ f + 1 < 10)]
    rw [tenPowGoIrrel f ((f + 1) / 10) ((f + 1) / 10) (by omega) le_rfl]
    rw [← hf]
    rfl

theorem foldDecVal (m : Nat) : ∀ a, foldDec a (natDec m) = a * tenPow m + m := by
  induction m using Nat.strong_induction_on with
  | _ m ih =>
    intro a
    rw [natDec_eq, tenPow_eq]
    by_cases hm : m < 10
    · rw [if_pos hm, if_pos hm]
      show a * 10 + ((digCh m).toNat - 48) = a * 10 + m
      rw [(digChProps m hm).2.1]
      omega
    · rw [if_neg hm, if_neg hm]
      unfold foldDec
      rw [List.foldl_append]
      have hrec := ih (m / 10) (Nat.div_lt_self (by omega) (by omega)) a
      unfold foldDec at hrec
      rw [hrec]
      show (a * tenPow (m / 10) + m / 10) * 10 + ((digCh (m % 10)).toNat - 48) = _
      rw [(digChProps (m % 10) (by omega)).2.1]
      have hexp : (a * tenPow (m / 10) + m / 10) * 10 + (48 + m % 10 - 48) =
          a * (10 * tenPow (m / 10)) + (m / 10 * 10 + m % 10) := by ring_nf; omega
      rw [hexp]
      congr 1
      omega

theorem digitsAccCat : ∀ ds a rest, (∀ c ∈ ds, c.isDigit = true) → headNotDigit rest →
    digitsAcc a (ds ++ rest) = (foldDec a ds, rest) := by
  intro ds
  induction ds with
  | nil =>
    intro a rest _ hrest
    cases rest with
    | nil => rfl
    | cons c r =>
      have hc : c.isDigit = false := hrest
      simp [digitsAcc, hc, foldDec]
  | cons d ds ih =>
    intro a rest hds hrest
    have hd : d.isDigit = true := hds d (by simp)
    simp only [List.cons_append, digitsAcc, hd, if_pos]
    show digitsAcc (a * 10 + (d.toNat - 48)) (ds ++ rest) = (foldDec a (d :: ds), rest)
    rw [ih _ rest (fun c hc => hds c (by simp [hc])) hrest]
    rfl

theorem parseNatPartDec (m : Nat) (rest : List Char) (hrest : headNotDigit rest) :
    parseNatPart (natDec m ++ rest) = some (m, rest) := by
  by_cases hm : m = 0
  · subst hm
    cases rest <;> rfl
  · obtain ⟨k, cs, hk, hEq, h1⟩ := ndHead m
    have hk1 : 1 ≤ k := h1 (by omega)
    have hne0 : digCh k ≠ '0' := (digChProps k hk).2.2.2.2.2.2.2.2.2.2.2.2.2.2.1 hk1
    have hdig : (digCh k).isDigit = true := (digChProps k hk).1
    rw [hEq]
    simp only [List.cons_append, parseNatPart, if_neg hne0, hdig, if_pos]
    have hcs : ∀ c ∈ cs, c.isDigit = true := by
      intro c hc
      exact ndAll m c (by rw [hEq]; simp [hc])
    rw [digitsAccCat cs ((digCh k).toNat - 48) rest hcs hrest]
    have hval : foldDec ((digCh k).toNat - 48) cs = m := by
      have h0 := foldDecVal m 0
      rw [hEq] at h0
      unfold foldDec at h0 ⊢
      simp only [List.foldl_cons] at h0
      rw [(digChProps k hk).2.1] at h0 ⊢
      simpa using h0
    rw [hval]

theorem restOkHnd (rest : List Char) (h : restOk rest) : headNotDigit rest := by
  cases rest with
  | nil => trivial
  | cons c r => exact h.1

theorem parseNumDec (n : Int) (rest : List Char) (hrest : restOk rest) :
    parseNum (intDec n ++ rest) = some (n, rest) := by
  have hnd : headNotDigit rest := restOkHnd rest hrest
  cases n with
  | ofNat m =>
    obtain ⟨k, cs, hk, hEq, _⟩ := ndHead m
    show parseNum (natDec m ++ rest) = _
    rw [hEq]
    simp only [List.cons_append, parseNum, if_neg (digChProps k hk).2.2.2.1]
    rw [show digCh k :: (cs ++ rest) = (digCh k :: cs) ++ rest from rfl, ← hEq,
      parseNatPartDec m rest hnd]
    cases rest with
    | nil => rfl
    | cons c2 r =>
      obtain ⟨_, hdot, he, hE⟩ := hrest
      simp only [if_neg (by tauto : ¬(c2 = '.' ∨ c2 = 'e' ∨ c2 = 'E'))]
      rfl
  | negSucc m =>
    show parseNum ('-' :: (natDec (m + 1) ++ rest)) = _
    rw [show parseNum ('-' :: (natDec (m + 1) ++ rest)) =
      (match parseNatPart (natDec (m + 1) ++ rest) with
       | some (n, r2) =>
         (match r2 with
          | [] => some (-(n : Int), [])
          | c2 :: _ => if c2 = '.' ∨ c2 = 'e' ∨ c2 = 'E' then none else some (-(n : Int), r2))
       | none => none) from rfl]
    rw [parseNatPartDec (m + 1) rest hnd]
    have hneg : -(((m + 1 : Nat) : Int)) = Int.negSucc m := by
      rw [Int.negSucc_eq]
      push_cast
      ring
    cases rest with
    | nil => simp only [hneg]
    | cons c2 r =>
      obtain ⟨_, hdot, he, hE⟩ := hrest
      simp only [if_neg (by tauto : ¬(c2 = '.' ∨ c2 = 'e' ∨ c2 = 'E')), hneg]

/-! ## JSON string escape round-trip -/

theorem hex4ValHex (u : Nat) (hu : u < 0x10000) :
    hex4Val (hexDig (u / 4096 % 16)) (hexDig (u / 256 % 16)) (hexDig (u / 16 % 16))
      (hexDig (u % 16)) = some u := by
  unfold hex4Val
  rw [hexValHexDig _ (by omega), hexValHexDig _ (by omega), hexValHexDig _ (by omega),
    hexValHexDig _ (by omega)]
  show some (((u / 4096 % 16 * 16 + u / 256 % 16) * 16 + u / 16 % 16) * 16 + u % 16) = some u
  exact congrArg some (by omega)

theorem parseStrGoU (f : Nat) (h1 h2 h3 h4 : Char) (r3 : List Char) :
    parseStrGo (f + 1) ('\\' :: 'u' :: h1 :: h2 :: h3 :: h4 :: r3) =
      (match hex4Val h1 h2 h3 h4 with
       | some u => uEsc u r3 (parseStrGo f)
       | none => none) := rfl

theorem uEscBMP (u : Nat) (r3 : List Char) (rec : List Char → Option (List Char × List Char))
    (hs1 : ¬(0xd800 ≤ u ∧ u < 0xdc00)) (hs2 : ¬(0xdc00 ≤ u ∧ u < 0xe000)) :
    uEsc u r3 rec = (rec r3).map (fun p => (Char.ofNat u :: p.1, p.2)) := by
  unfold uEsc
  rw [if_neg hs1, if_neg hs2]

theorem uEscPair (u1 u2 : Nat) (tail : List Char)
    (rec : List Char → Option (List Char × List Char))
    (h1 : 0xd800 ≤ u1 ∧ u1 < 0xdc00) (h2 : 0xdc00 ≤ u2 ∧ u2 < 0xe000) :
    uEsc u1 ('\\' :: 'u' :: (hex4 u2 ++ tail)) rec =
      (rec tail).map (fun p =>
        (Char.ofNat (0x10000 + (u1 - 0xd800) * 0x400 + (u2 - 0xdc00)) :: p.1, p.2)) := by
  unfold uEsc
  rw [if_pos h1]
  show (match hex4Val (hexDig (u2 / 4096 % 16)) (hexDig (u2 / 256 % 16))
      (hexDig (u2 / 16 % 16)) (hexDig (u2 % 16)) with
    | some u2' =>
      if 0xdc00 ≤ u2' ∧ u2' < 0xe000 then
        (rec tail).map (fun (p : List Char × List Char) =>
          (Char.ofNat (0x10000 + (u1 - 0xd800) * 0x400 + (u2' - 0xdc00)) :: p.1, p.2))
      else none
    | none => none) = _
  rw [hex4ValHex u2 (by omega)]
  show (if 0xdc00 ≤ u2 ∧ u2 < 0xe000 then _ else none) = _
  rw [if_pos h2]

theorem escStep (c : Char) (f : Nat) (tail : List Char) :
    parseStrGo (f + 1) (escChar c ++ tail) =
      (parseStrGo f tail).map (fun p => (c :: p.1, p.2)) := by
  by_cases h1 : c = '"'
  · subst h1; rfl
  by_cases h2 : c = '\\'
  · subst h2; rfl
  by_cases h3 : c = '\n'
  · subst h3; rfl
  by_cases h4 : c = '\t'
  · subst h4; rfl
  by_cases h5 : c = '\r'
  · subst h5; rfl
  by_cases h6 : c = '\x08'
  · subst h6; rfl
  by_cases h7 : c = '\x0c'
  · subst h7; rfl
  by_cases h8 : 0x20 ≤ c.toNat ∧ c.toNat ≤ 0x7e
  · have hesc : escChar c = [c] := by
      unfold escChar
      rw [if_neg h1, if_neg h2, if_neg h3, if_neg h4, if_neg h5, if_neg h6, if_neg h7,
        if_pos h8]
    rw [hesc]
    show parseStrGo (f + 1) (c :: tail) = _
    simp only [parseStrGo]
    rw [if_neg h1, if_neg h2, if_neg (by omega : ¬ c.toNat < 0x20)]
  by_cases h9 : c.toNat < 0x10000
  · have hesc : escChar c = '\\' :: 'u' :: hex4 c.toNat := by
      unfold escChar
      rw [if_neg h1, if_neg h2, if_neg h3, if_neg h4, if_neg h5, if_neg h6, if_neg h7,
        if_neg h8, if_pos h9]
    rw [hesc]
    have hv := chValid c
    rw [show ('\\' :: 'u' :: hex4 c.toNat) ++ tail =
      '\\' :: 'u' :: (hexDig (c.toNat / 4096 % 16) :: hexDig (c.toNat / 256 % 16) ::
        hexDig (c.toNat / 16 % 16) :: hexDig (c.toNat % 16) :: tail) from rfl]
    rw [parseStrGoU]
    rw [hex4ValHex c.toNat h9]
    show uEsc c.toNat tail (parseStrGo f) = _
    rw [uEscBMP c.toNat tail (parseStrGo f) (by omega) (by omega), chOfNatToNat]
  · have hesc : escChar c =
        ('\\' :: 'u' :: hex4 (0xd800 + (c.toNat - 0x10000) / 0x400)) ++
          ('\\' :: 'u' :: hex4 (0xdc00 + (c.toNat - 0x10000) % 0x400)) := by
      unfold escChar
      rw [if_neg h1, if_neg h2, if_neg h3, if_neg h4, if_neg h5, if_neg h6, if_neg h7,
        if_neg h8, if_neg h9]
    rw [hesc]
    have hv := chValid c
    have hlt : c.toNat < 0x110000 := by omega
    rw [show (('\\' :: 'u' :: hex4 (0xd800 + (c.toNat - 0x10000) / 0x400)) ++
        ('\\' :: 'u' :: hex4 (0xdc00 + (c.toNat - 0x10000) % 0x400))) ++ tail =
      '\\' :: 'u' :: (hexDig ((0xd800 + (c.toNat - 0x10000) / 0x400) / 4096 % 16) ::
        hexDig ((0xd800 + (c.toNat - 0x10000) / 0x400) / 256 % 16) ::
        hexDig ((0xd800 + (c.toNat - 0x10000) / 0x400) / 16 % 16) ::
        hexDig ((0xd800 + (c.toNat - 0x10000) / 0x400) % 16) ::
        ('\\' :: 'u' :: (hex4 (0xdc00 + (c.toNat - 0x10000) % 0x400) ++ tail))) from by
          simp [hex4, List.append_assoc]]
    rw [parseStrGoU]
    rw [hex4ValHex (0xd800 + (c.toNat - 0x10000) / 0x400) (by omega)]
    show uEsc (0xd800 + (c.toNat - 0x10000) / 0x400)
      ('\\' :: 'u' :: (hex4 (0xdc00 + (c.toNat - 0x10000) % 0x400) ++ tail))
      (parseStrGo f) = _
    rw [uEscPair _ _ tail (parseStrGo f) (by omega) (by omega)]
    rw [show 0x10000 + (0xd800 + (c.toNat - 0x10000) / 0x400 - 0xd800) * 0x400 +
        (0xdc00 + (c.toNat - 0x10000) % 0x400 - 0xdc00) = c.toNat from by omega]
    rw [chOfNatToNat]

theorem escListParse : ∀ (cs : List Char) (f : Nat) (tail : List Char), cs.length < f →
    parseStrGo f (escList cs ++ '"' :: tail) = some (cs, tail) := by
  intro cs
  induction cs with
  | nil =>
    intro f tail hf
    obtain ⟨f', rfl⟩ : ∃ f', f = f' + 1 := ⟨f - 1, by omega⟩
    rfl
  | cons c cs ih =>
    intro f tail hf
    obtain ⟨f', rfl⟩ : ∃ f', f = f' + 1 := ⟨f - 1, by omega⟩
    rw [show escList (c :: cs) ++ '"' :: tail = escChar c ++ (escList cs ++ '"' :: tail) from by
      show (escChar c ++ escList cs) ++ '"' :: tail = _
      rw [List.append_assoc]]
    rw [escStep c f' (escList cs ++ '"' :: tail)]
    rw [ih f' tail (by simpa using Nat.lt_of_succ_lt_succ (by simpa using hf))]
    rfl

theorem escCharLen (c : Char) : 1 ≤ (escChar c).length := by
  unfold escChar
  split_ifs <;> simp [hex4]

theorem escListLen (cs : List Char) : cs.length ≤ (escList cs).length := by
  induction cs with
  | nil => simp [escList]
  | cons c cs ih =>
    show (c :: cs).length ≤ (escChar c ++ escList cs).length
    rw [List.length_append, List.length_cons]
    have := escCharLen c
    omega

theorem parseJStrEnc (cs : List Char) (tail : List Char) :
    parseJStr (escList cs ++ '"' :: tail) = some (String.mk cs, tail) := by
  unfold parseJStr
  rw [escListParse cs ((escList cs ++ '"' :: tail).length + 1) tail
    (by rw [List.length_append]; have := escListLen cs; simp; omega)]
  rfl

/-! ## Parser step lemmas -/

theorem skipWsNws (c : Char) (r : List Char) (h : jWs c = false) :
    skipWs (c :: r) = c :: r := by
  simp [skipWs, h]

theorem restOkCons (c : Char) (r : List Char)
    (h : c.isDigit = false ∧ c ≠ '.' ∧ c ≠ 'e' ∧ c ≠ 'E') : restOk (c :: r) := h

theorem mvalSpace (g : Nat) (s : List Char) :
    parseCore g PMode.mval (' ' :: s) = parseCore g PMode.mval s := by
  cases g with
  | zero => rfl
  | succ f =>
    simp only [parseCore]
    rw [show skipWs (' ' :: s) = skipWs s from by simp [skipWs, jWs]]

theorem mitemsSpace (g : Nat) (s : List Char) :
    parseCore g PMode.mitems (' ' :: s) = parseCore g PMode.mitems s := by
  cases g with
  | zero => rfl
  | succ f =>
    simp only [parseCore]
    rw [mvalSpace]

theorem mpairsSpace (g : Nat) (s : List Char) :
    parseCore g PMode.mpairs (' ' :: s) = parseCore g PMode.mpairs s := by
  cases g with
  | zero => rfl
  | succ f =>
    simp only [parseCore]
    rw [show skipWs (' ' :: s) = skipWs s from by simp [skipWs, jWs]]

theorem mvalArr (f : Nat) (x : List Char) :
    parseCore (f + 1) PMode.mval ('[' :: x) =
      (match skipWs x with
       | ']' :: r2 => some (POut.oval (JVal.jArr []) r2)
       | r2 =>
         (match parseCore f PMode.mitems r2 with
          | some (POut.oitems vs r3) => some (POut.oval (JVal.jArr vs) r3)
          | _ => none)) := rfl

theorem mvalObj (f : Nat) (x : List Char) :
    parseCore (f + 1) PMode.mval ('{' :: x) =
      (match skipWs x with
       | '}' :: r2 => some (POut.oval (JVal.jObj []) r2)
       | r2 =>
         (match parseCore f PMode.mpairs r2 with
          | some (POut.opairs ms r3) => some (POut.oval (JVal.jObj ms) r3)
          | _ => none)) := rfl

theorem mvalStr (f : Nat) (x : List Char) :
    parseCore (f + 1) PMode.mval ('"' :: x) =
      (match parseJStr x with
       | some (str, r2) => some (POut.oval (JVal.jStr str) r2)
       | none => none) := rfl

theorem mitemsEq (f : Nat) (s : List Char) :
    parseCore (f + 1) PMode.mitems s =
      (match parseCore f PMode.mval s with
       | some (POut.oval v r) =>
         (match skipWs r with
          | ',' :: r2 =>
            (match parseCore f PMode.mitems r2 with
             | some (POut.oitems vs r3) => some (POut.oitems (v :: vs) r3)
             | _ => none)
          | ']' :: r2 => some (POut.oitems [v] r2)
          | _ => none)
       | _ => none) := rfl

theorem mpairsEq (f : Nat) (s : List Char) :
    parseCore (f + 1) PMode.mpairs s =
      (match skipWs s with
       | '"' :: r =>
         (match parseJStr r with
          | some (k, r2) =>
            (match skipWs r2 with
             | ':' :: r3 =>
               (match parseCore f PMode.mval r3 with
                | some (POut.oval v r4) =>
                  (match skipWs r4 with
                   | ',' :: r5 =>
                     (match parseCore f PMode.mpairs r5 with
                      | some (POut.opairs ms r6) => some (POut.opairs ((k, v) :: ms) r6)
                      | _ => none)
                   | '}' :: r5 => some (POut.opairs [(k, v)] r5)
                   | _ => none)
                | _ => none)
             | _ => none)
          | none => none)
       | _ => none) := rfl

theorem mvalNum (f : Nat) (c : Char) (r : List Char)
    (hws : jWs c = false) (h1 : c ≠ 'n') (h2 : c ≠ 't') (h3 : c ≠ 'f') (h4 : c ≠ '"')
    (h5 : c ≠ '[') (h6 : c ≠ '{') :
    parseCore (f + 1) PMode.mval (c :: r) =
      (match parseNum (c :: r) with
       | some (n, r2) => some (POut.oval (JVal.jInt n) r2)
       | none => none) := by
  simp only [parseCore]
  rw [skipWsNws c r hws]
  simp [h1, h2, h3, h4, h5, h6]

theorem dumpHeadFacts (j : JVal) :
    ∃ c cs, dumpV j = c :: cs ∧ jWs c = false ∧ c ≠ ']' ∧ c ≠ '}' := by
  cases j with
  | jNull => exact ⟨'n', ['u', 'l', 'l'], by simp [dumpV], by decide, by decide, by decide⟩
  | jBool b =>
    cases b with
    | true => exact ⟨'t', ['r', 'u', 'e'], by simp [dumpV], by decide, by decide, by decide⟩
    | false =>
      exact ⟨'f', ['a', 'l', 's', 'e'], by simp [dumpV], by decide, by decide, by decide⟩
  | jInt n =>
    cases n with
    | ofNat m =>
      obtain ⟨k, cs, hk, hEq, _⟩ := ndHead m
      have hp := digChProps k hk
      exact ⟨digCh k, cs, by simp [dumpV, intDec, hEq], hp.2.2.1,
        hp.2.2.2.2.2.2.2.2.2.2.2.2.2.1, hp.2.2.2.2.2.2.2.2.2.2.2.2.2.2.2.2⟩
    | negSucc m =>
      exact ⟨'-', natDec (m + 1), by simp [dumpV, intDec], by decide, by decide, by decide⟩
  | jStr s =>
    exact ⟨'"', escList s.data ++ ['"'], by simp [dumpV, encStr], by decide, by decide,
      by decide⟩
  | jArr xs =>
    cases xs with
    | nil => exact ⟨'[', [']'], by simp [dumpV], by decide, by decide, by decide⟩
    | cons x xs =>
      exact ⟨'[', dumpV x ++ (dumpItems xs ++ [']']), by simp [dumpV], by decide,
        by decide, by decide⟩
  | jObj ms =>
    cases ms with
    | nil => exact ⟨'{', ['}'], by simp [dumpV], by decide, by decide, by decide⟩
    | cons p ms =>
      obtain ⟨k, v⟩ := p
      exact ⟨'{', encStr k ++ (':' :: ' ' :: dumpV v ++ (dumpPairs ms ++ ['}'])),
        by simp [dumpV], by decide, by decide, by decide⟩

/-! ## Round-trip of parseCore over dumpV -/

theorem itemsAux : ∀ (xs : List JVal) (x : JVal),
    (∀ y, y ∈ x :: xs →
      ∀ f rest, 2 * (dumpV y).length ≤ f → restOk rest →
        parseCore f PMode.mval (dumpV y ++ rest) = some (POut.oval y rest)) →
    ∀ f rest, 2 * ((dumpV x).length + (dumpItems xs).length) + 1 ≤ f →
      parseCore f PMode.mitems (dumpV x ++ (dumpItems xs ++ ']' :: rest)) =
        some (POut.oitems (x :: xs) rest) := by
  intro xs
  induction xs with
  | nil =>
    intro x hpv f rest hf
    obtain ⟨f', rfl⟩ : ∃ f', f = f' + 1 := ⟨f - 1, by omega⟩
    have hdi : dumpItems ([] : List JVal) = [] := by simp [dumpItems]
    rw [hdi] at hf ⊢
    simp only [List.nil_append]
    rw [mitemsEq]
    rw [hpv x (by simp) f' (']' :: rest)
      (by simp at hf; omega) (restOkCons ']' rest (by decide))]
    simp [skipWs, jWs]
  | cons y ys ih =>
    intro x hpv f rest hf
    obtain ⟨f', rfl⟩ : ∃ f', f = f' + 1 := ⟨f - 1, by omega⟩
    have hdi : dumpItems (y :: ys) = ',' :: ' ' :: (dumpV y ++ dumpItems ys) := by
      simp [dumpItems]
    have hlen : (dumpItems (y :: ys)).length =
        2 + (dumpV y).length + (dumpItems ys).length := by
      rw [hdi]
      simp [List.length_append]
      omega
    rw [mitemsEq, hdi]
    rw [show (',' :: ' ' :: (dumpV y ++ dumpItems ys)) ++ ']' :: rest =
      ',' :: ' ' :: ((dumpV y ++ dumpItems ys) ++ ']' :: rest) from rfl]
    rw [hpv x (by simp) f' (',' :: ' ' :: ((dumpV y ++ dumpItems ys) ++ ']' :: rest))
      (by rw [hlen] at hf; omega)
      (restOkCons ',' _ (by decide))]
    simp only []
    rw [skipWsNws ',' (' ' :: ((dumpV y ++ dumpItems ys) ++ ']' :: rest)) (by decide)]
    simp only []
    rw [mitemsSpace, List.append_assoc]
    rw [ih y (fun z hz => hpv z (by simp at hz ⊢; tauto)) f' rest
      (by rw [hlen] at hf; omega)]

theorem pairsAux : ∀ (ms : List (String × JVal)) (k : String) (v : JVal),
    (∀ w, w ∈ (k, v) :: ms →
      ∀ f rest, 2 * (dumpV w.2).length ≤ f → restOk rest →
        parseCore f PMode.mval (dumpV w.2 ++ rest) = some (POut.oval w.2 rest)) →
    ∀ f rest, 2 * ((encStr k).length + (dumpV v).length + (dumpPairs ms).length) + 5 ≤ f →
      parseCore f PMode.mpairs
          (encStr k ++ (':' :: ' ' :: (dumpV v ++ (dumpPairs ms ++ '}' :: rest)))) =
        some (POut.opairs ((k, v) :: ms) rest) := by
  intro ms
  induction ms with
  | nil =>
    intro k v hpv f rest hf
    obtain ⟨f', rfl⟩ : ∃ f', f = f' + 1 := ⟨f - 1, by omega⟩
    have hdp : dumpPairs ([] : List (String × JVal)) = [] := by simp [dumpPairs]
    rw [hdp] at hf ⊢
    simp only [List.nil_append]
    rw [mpairsEq]
    rw [show encStr k ++ (':' :: ' ' :: (dumpV v ++ '}' :: rest)) =
      '"' :: (escList k.data ++ '"' :: (':' :: ' ' :: (dumpV v ++ '}' :: rest))) from by
        simp [encStr]]
    rw [skipWsNws '"' _ (by decide)]
    simp only []
    rw [parseJStrEnc k.data (':' :: ' ' :: (dumpV v ++ '}' :: rest))]
    simp only []
    rw [skipWsNws ':' _ (by decide)]
    simp only []
    rw [mvalSpace]
    rw [hpv (k, v) (by simp) f' ('}' :: rest)
      (by show 2 * (dumpV v).length ≤ f'; simp at hf; omega)
      (restOkCons '}' rest (by decide))]
    simp only []
    rw [skipWsNws '}' rest (by decide)]
    rfl
  | cons w ws ih =>
    intro k v hpv f rest hf
    obtain ⟨f', rfl⟩ : ∃ f', f = f' + 1 := ⟨f - 1, by omega⟩
    obtain ⟨k2, v2⟩ := w
    have hdp2 : dumpPairs ((k2, v2) :: ws) ++ '}' :: rest =
        ',' :: ' ' :: (encStr k2 ++ (':' :: ' ' :: (dumpV v2 ++ (dumpPairs ws ++ '}' :: rest)))) := by
      simp [dumpPairs]
    have hlen : (dumpPairs ((k2, v2) :: ws)).length =
        4 + (encStr k2).length + (dumpV v2).length + (dumpPairs ws).length := by
      simp [dumpPairs, List.length_append]
      omega
    rw [mpairsEq]
    rw [show encStr k ++ (':' :: ' ' ::
        (dumpV v ++ (dumpPairs ((k2, v2) :: ws) ++ '}' :: rest))) =
      '"' :: (escList k.data ++ '"' :: (':' :: ' ' ::
        (dumpV v ++ (dumpPairs ((k2, v2) :: ws) ++ '}' :: rest)))) from by simp [encStr]]
    rw [skipWsNws '"' _ (by decide)]
    simp only []
    rw [parseJStrEnc k.data (':' :: ' ' ::
      (dumpV v ++ (dumpPairs ((k2, v2) :: ws) ++ '}' :: rest)))]
    simp only []
    rw [skipWsNws ':' _ (by decide)]
    simp only []
    rw [mvalSpace]
    rw [hpv (k, v) (by simp) f' (dumpPairs ((k2, v2) :: ws) ++ '}' :: rest)
      (by show 2 * (dumpV v).length ≤ f'; omega)
      (by rw [hdp2]; exact restOkCons ',' _ (by decide))]
    simp only []
    rw [hdp2]
    rw [skipWsNws ',' _ (by decide)]
    simp only []
    rw [mpairsSpace]
    rw [ih k2 v2 (fun z hz => hpv z (by simp at hz ⊢; tauto)) f' rest
      (by rw [hlen] at hf; omega)]

theorem pvalAux : ∀ (n : Nat) (j : JVal), sizeOf j ≤ n →
    ∀ f rest, 2 * (dumpV j).length ≤ f → restOk rest →
      parseCore f PMode.mval (dumpV j ++ rest) = some (POut.oval j rest) := by
  intro n
  induction n with
  | zero =>
    intro j hsz
    exfalso
    cases j <;> simp at hsz
  | succ n ih =>
    intro j hsz f rest hfuel hrest
    cases j with
    | jNull =>
      obtain ⟨f', rfl⟩ : ∃ f', f = f' + 1 := ⟨f - 1, by
        have hl : (dumpV JVal.jNull).length = 4 := by simp [dumpV]
        omega⟩
      rw [show dumpV JVal.jNull = ['n', 'u', 'l', 'l'] from by simp [dumpV]]
      rfl
    | jBool b =>
      cases b with
      | true =>
        obtain ⟨f', rfl⟩ : ∃ f', f = f' + 1 := ⟨f - 1, by
          have hl : (dumpV (JVal.jBool true)).length = 4 := by simp [dumpV]
          omega⟩
        rw [show dumpV (JVal.jBool true) = ['t', 'r', 'u', 'e'] from by simp [dumpV]]
        rfl
      | false =>
        obtain ⟨f', rfl⟩ : ∃ f', f = f' + 1 := ⟨f - 1, by
          have hl : (dumpV (JVal.jBool false)).length = 5 := by simp [dumpV]
          omega⟩
        rw [show dumpV (JVal.jBool false) = ['f', 'a', 'l', 's', 'e'] from by simp [dumpV]]
        rfl
    | jInt i =>
      obtain ⟨c0, cs0, hEq0, _, _, _⟩ := dumpHeadFacts (JVal.jInt i)
      obtain ⟨f', rfl⟩ : ∃ f', f = f' + 1 := ⟨f - 1, by
        rw [hEq0] at hfuel
        simp at hfuel
        omega⟩
      cases i with
      | ofNat m =>
        obtain ⟨k, cs2, hk, hNd, _⟩ := ndHead m
        have hp := digChProps k hk
        have hdv : dumpV (JVal.jInt (Int.ofNat m)) = digCh k :: cs2 := by
          simp [dumpV, intDec, hNd]
        rw [hdv]
        rw [show (digCh k :: cs2) ++ rest = digCh k :: (cs2 ++ rest) from rfl]
        rw [mvalNum f' (digCh k) (cs2 ++ rest) hp.2.2.1 hp.2.2.2.2.1 hp.2.2.2.2.2.1
          hp.2.2.2.2.2.2.1 hp.2.2.2.2.2.2.2.1 hp.2.2.2.2.2.2.2.2.1 hp.2.2.2.2.2.2.2.2.2.1]
        rw [show digCh k :: (cs2 ++ rest) = (digCh k :: cs2) ++ rest from rfl, ← hNd]
        rw [show natDec m ++ rest = intDec (Int.ofNat m) ++ rest from rfl]
        rw [parseNumDec (Int.ofNat m) rest hrest]
      | negSucc m =>
        have hdv : dumpV (JVal.jInt (Int.negSucc m)) = '-' :: natDec (m + 1) := by
          simp [dumpV, intDec]
        rw [hdv]
        rw [show ('-' :: natDec (m + 1)) ++ rest = '-' :: (natDec (m + 1) ++ rest) from rfl]
        rw [mvalNum f' '-' (natDec (m + 1) ++ rest) (by decide) (by decide) (by decide)
          (by decide) (by decide) (by decide) (by decide)]
        rw [show '-' :: (natDec (m + 1) ++ rest) = intDec (Int.negSucc m) ++ rest from rfl]
        rw [parseNumDec (Int.negSucc m) rest hrest]
    | jStr s =>
      obtain ⟨c0, cs0, hEq0, _, _, _⟩ := dumpHeadFacts (JVal.jStr s)
      obtain ⟨f', rfl⟩ : ∃ f', f = f' + 1 := ⟨f - 1, by
        rw [hEq0] at hfuel
        simp at hfuel
        omega⟩
      have hdv : dumpV (JVal.jStr s) ++ rest = '"' :: (escList s.data ++ '"' :: rest) := by
        simp [dumpV, encStr]
      rw [hdv, mvalStr]
      rw [parseJStrEnc s.data rest]
    | jArr xs =>
      cases xs with
      | nil =>
        obtain ⟨f', rfl⟩ : ∃ f', f = f' + 1 := ⟨f - 1, by
          have hl : (dumpV (JVal.jArr [])).length = 2 := by simp [dumpV]
          omega⟩
        rw [show dumpV (JVal.jArr []) = ['[', ']'] from by simp [dumpV]]
        rfl
      | cons x xs =>
        have hl : (dumpV (JVal.jArr (x :: xs))).length =
            2 + (dumpV x).length + (dumpItems xs).length := by
          simp [dumpV, List.length_append]
          omega
        rw [hl] at hfuel
        obtain ⟨f', rfl⟩ : ∃ f', f = f' + 1 := ⟨f - 1, by omega⟩
        have hdv : dumpV (JVal.jArr (x :: xs)) ++ rest =
            '[' :: (dumpV x ++ (dumpItems xs ++ ']' :: rest)) := by
          simp [dumpV]
        rw [hdv, mvalArr]
        obtain ⟨c, cs, hEq, hws, hne1, _⟩ := dumpHeadFacts x
        rw [hEq]
        rw [show (c :: cs) ++ (dumpItems xs ++ ']' :: rest) =
          c :: (cs ++ (dumpItems xs ++ ']' :: rest)) from rfl]
        rw [skipWsNws c _ hws]
        have hmem : ∀ y, y ∈ x :: xs →
            ∀ f rest, 2 * (dumpV y).length ≤ f → restOk rest →
              parseCore f PMode.mval (dumpV y ++ rest) = some (POut.oval y rest) := by
          intro y hy
          apply ih y
          have h1 : sizeOf y < sizeOf (x :: xs) := List.sizeOf_lt_of_mem hy
          have h2 : sizeOf (JVal.jArr (x :: xs)) = 1 + sizeOf (x :: xs) := by simp
          omega
        split
        · rename_i r2 heq
          injection heq with hch _
          exact absurd hch hne1
        · rw [show c :: (cs ++ (dumpItems xs ++ ']' :: rest)) =
            dumpV x ++ (dumpItems xs ++ ']' :: rest) from by rw [hEq]; rfl]
          rw [itemsAux xs x hmem f' rest (by omega)]
    | jObj ms =>
      cases ms with
      | nil =>
        obtain ⟨f', rfl⟩ : ∃ f', f = f' + 1 := ⟨f - 1, by
          have hl : (dumpV (JVal.jObj [])).length = 2 := by simp [dumpV]
          omega⟩
        rw [show dumpV (JVal.jObj []) = ['{', '}'] from by simp [dumpV]]
        rfl
      | cons p ms =>
        obtain ⟨k, v⟩ := p
        have hl : (dumpV (JVal.jObj ((k, v) :: ms))).length =
            4 + (encStr k).length + (dumpV v).length + (dumpPairs ms).length := by
          simp [dumpV, List.length_append]
          omega
        rw [hl] at hfuel
        obtain ⟨f', rfl⟩ : ∃ f', f = f' + 1 := ⟨f - 1, by omega⟩
        have hdv : dumpV (JVal.jObj ((k, v) :: ms)) ++ rest =
            '{' :: (encStr k ++ (':' :: ' ' :: (dumpV v ++ (dumpPairs ms ++ '}' :: rest)))) := by
          simp [dumpV]
        rw [hdv, mvalObj]
        rw [show encStr k ++ (':' :: ' ' :: (dumpV v ++ (dumpPairs ms ++ '}' :: rest))) =
          '"' :: (escList k.data ++ ('"' :: (':' :: ' ' ::
            (dumpV v ++ (dumpPairs ms ++ '}' :: rest))))) from by simp [encStr]]
        rw [skipWsNws '"' _ (by decide)]
        have hmem : ∀ w, w ∈ (k, v) :: ms →
            ∀ f rest, 2 * (dumpV w.2).length ≤ f → restOk rest →
              parseCore f PMode.mval (dumpV w.2 ++ rest) = some (POut.oval w.2 rest) := by
          intro w hw
          apply ih w.2
          have h1 : sizeOf w < sizeOf ((k, v) :: ms) := List.sizeOf_lt_of_mem hw
          have h2 : sizeOf (JVal.jObj ((k, v) :: ms)) = 1 + sizeOf ((k, v) :: ms) := by simp
          have h3 : sizeOf w.2 < sizeOf w := by
            obtain ⟨a, b⟩ := w
            simp
          omega
        split
        · rename_i r2 heq
          injection heq with hch _
          exact absurd hch (by decide)
        · rw [show ('"' : Char) :: (escList k.data ++ ('"' :: (':' :: ' ' ::
            (dumpV v ++ (dumpPairs ms ++ '}' :: rest))))) =
            encStr k ++ (':' :: ' ' :: (dumpV v ++ (dumpPairs ms ++ '}' :: rest)))
            from by simp [encStr]]
          rw [pairsAux ms k v hmem f' rest (by omega)]

/-- Round-trip: parsing the serialization of any JSON value gives back
exactly that value. -/
theorem loadsDumps (j : JVal) : jsonLoads (dumpStr j) = some j := by
  have hp := pvalAux (sizeOf j) j le_rfl (2 * (dumpV j).length + 2) [] (by omega) trivial
  rw [List.append_nil] at hp
  unfold jsonLoads
  rw [show (dumpStr j).data = dumpV j from rfl]
  rw [hp]
  rfl

theorem dropWhileAllFalse (p : Char → Bool) (l : List Char)
    (h : ∀ c ∈ l, p c = false) : l.dropWhile p = l := by
  induction l with
  | nil => rfl
  | cons c cs ih =>
    rw [List.dropWhile_cons]
    simp [h c (by simp), ih (fun x hx => h x (by simp [hx]))]

theorem pyStripNoWs (s : String) (h : ∀ c ∈ s.data, pyWs c = false) : pyStrip s = s := by
  unfold pyStrip pyStripL
  rw [dropWhileAllFalse _ _ h,
    dropWhileAllFalse _ _ (fun c hc => h c (by simpa using hc)),
    List.reverse_reverse]

theorem storeFindSet (n : String) (v : PyValue) (st : Store) :
    storeFind n (storeSet n v st) = some v := by
  simp [storeFind, storeSet]

/-! ## Claim C1 -/

/-- C1: for every whitespace-free variable name and every JSON text that
parses to a value `j`, `/set_json` stores `j` and replies with the success
line, a following `/get_json` replies with the serialization of `j`, and
that serialization parses back to exactly `j` (structural round-trip
through the Session Store). -/
theorem c1_set_get_json_roundtrip (n T : String) (j : JVal) (st : Store)
    (ev : Evaluator) (ex : ExecFn)
    (hnw : ∀ c ∈ n.data, pyWs c = false)
    (hT : jsonLoads T = some j)
    (hclean1 : pyStrip ("/set_json " ++ n ++ " " ++ T) = "/set_json " ++ n ++ " " ++ T)
    (hclean2 : pyStrip ("/get_json " ++ n) = "/get_json " ++ n) :
    (handleLine ("/set_json " ++ n ++ " " ++ T) st ev ex).replies =
      ["Set JSON '" ++ n ++ "' success\n"] ∧
    (handleLine ("/get_json " ++ n)
        (handleLine ("/set_json " ++ n ++ " " ++ T) st ev ex).store ev ex).replies =
      [dumpStr j ++ "\n"] ∧
    jsonLoads (dumpStr j) = some j := by
  have hne1 : ("/set_json " ++ n ++ " " ++ T : String) ≠ "" := by
    intro h
    have hd := congrArg String.data h
    simp [String.data_append] at hd
  have hp1 : parseCmd ("/set_json " ++ n ++ " " ++ T) = ("/set_json", n ++ " " ++ T) := by
    have hd : ("/set_json " ++ n ++ " " ++ T).data =
        "/set_json".data ++ ' ' :: (n ++ " " ++ T).data := by
      simp only [String.data_append]
      simp
    unfold parseCmd splitOnce
    rw [hd, splitPre "/set_json".data (by decide) (n ++ " " ++ T).data]
    rfl
  have hsp : splitOnce ' ' (n ++ " " ++ T) = some (n, T) := by
    unfold splitOnce
    have hd2 : (n ++ " " ++ T).data = n.data ++ ' ' :: T.data := by
      simp only [String.data_append]
      simp
    rw [hd2, splitPre n.data
      (fun c hc => by
        intro he
        subst he
        have := hnw ' ' hc
        simp [pyWs] at this) T.data]
    rfl
  have h1 : handleLine ("/set_json " ++ n ++ " " ++ T) st ev ex =
      ⟨["Set JSON '" ++ n ++ "' success\n"], storeSet n (.ofJson j) st, .aCont⟩ := by
    rw [handleLine_eq _ _ "/set_json" (n ++ " " ++ T) st ev ex hclean1 hne1 hp1]
    rw [dispatch_set_json, hsp]
    simp only []
    rw [hT]
    simp only []
    rw [pyStripNoWs n hnw]
  have hne2 : ("/get_json " ++ n : String) ≠ "" := strCatNeEmpty _ _ (by decide)
  have hp2 : parseCmd ("/get_json " ++ n) = ("/get_json", n) := by
    rw [show ("/get_json " ++ n : String) = "/get_json" ++ " " ++ n from rfl]
    exact parseCmd_cat "/get_json" n (by decide)
  have h2 : handleLine ("/get_json " ++ n) (storeSet n (.ofJson j) st) ev ex =
      ⟨[dumpStr j ++ "\n"], storeSet n (.ofJson j) st, .aCont⟩ := by
    rw [handleLine_eq _ _ "/get_json" n (storeSet n (.ofJson j) st) ev ex hclean2 hne2 hp2]
    rw [dispatch_get_json, pyStripNoWs n hnw, storeFindSet]
    rfl
  refine ⟨by rw [h1], ?_, loadsDumps j⟩
  rw [h1]
  simp only []
  rw [h2]

/-- C1 witness: storing and reading back an object holding an array, a
string, and literals. -/
theorem c1_set_get_json_roundtrip_witness :
    (handleLine ("/set_json " ++ "x" ++ " " ++ "\x7b\x22a\x22: [1, null], \x22b\x22: -20\x7d")
        [] evQuietSeven exNoop).replies = ["Set JSON '" ++ "x" ++ "' success\n"] ∧
    (handleLine ("/get_json " ++ "x")
        (handleLine ("/set_json " ++ "x" ++ " " ++ "\x7b\x22a\x22: [1, null], \x22b\x22: -20\x7d")
          [] evQuietSeven exNoop).store evQuietSeven exNoop).replies =
      [dumpStr (JVal.jObj [("a", JVal.jArr [JVal.jInt 1, JVal.jNull]),
        ("b", JVal.jInt (-20))]) ++ "\n"] ∧
    jsonLoads (dumpStr (JVal.jObj [("a", JVal.jArr [JVal.jInt 1, JVal.jNull]),
        ("b", JVal.jInt (-20))])) =
      some (JVal.jObj [("a", JVal.jArr [JVal.jInt 1, JVal.jNull]), ("b", JVal.jInt (-20))]) :=
  c1_set_get_json_roundtrip "x" "\x7b\x22a\x22: [1, null], \x22b\x22: -20\x7d"
    (JVal.jObj [("a", JVal.jArr [JVal.jInt 1, JVal.jNull]), ("b", JVal.jInt (-20))])
    [] evQuietSeven exNoop (by decide) rfl rfl rfl
